import Mathlib

/-!
Verification of the JSON (de)serialization module for Stock and Trade records
(`assignment.py`): domain records, the tagged-dict converter (`to_dict` /
`custom_decoder`), the generic codec (`json.dumps` with `CustomEncoder` /
`json.loads` with the `custom_decoder` object hook), and the marshmallow
schema codec (`StockSchema`, `TradeSchema`, `serialize_with_marshmallow`,
`deserialize_with_marshmallow`).

The JSON document is modelled as a value tree (`JValue`); the JSON text
printer/parser is an external black box per the specification, as is the
marshmallow validation engine, which is modelled from its documented
field-level behaviour.  Python `Decimal`, `date` and `datetime` values and
their exact to-string / from-string conversions are embedded following the
CPython implementations (`_pydecimal.Decimal.__str__`, the `Decimal`
constructor's numeric-string grammar, `date.isoformat` / `date.fromisoformat`,
`datetime.isoformat` / `datetime.fromisoformat`).
-/

set_option maxHeartbeats 1000000

namespace Assignment

/-! ## Decimal digit characters and digit strings -/

/-- The ASCII digit character for `n < 10` (`'0'`..`'9'`). -/
def digitChar (n : Nat) : Char := Char.ofNat (48 + n)

/-- Numeric value of an ASCII digit character. -/
def digitVal (c : Char) : Nat := c.toNat - 48

/-- Value of a big-endian ASCII digit string (how Python's `int`/`Decimal`
interpret a run of digits; leading zeros are insignificant). -/
def digitsToNat (cs : List Char) : Nat := cs.foldl (fun a c => a * 10 + digitVal c) 0

theorem isDigit_digitChar : ∀ k, k < 10 → (digitChar k).isDigit = true := by decide

theorem digitVal_digitChar : ∀ k, k < 10 → digitVal (digitChar k) = k := by decide

theorem digitChar_ne_signs : ∀ k, k < 10 →
    digitChar k ≠ '+' ∧ digitChar k ≠ '-' ∧ digitChar k ≠ '.' ∧ digitChar k ≠ ':' ∧
    digitChar k ≠ 'E' ∧ digitChar k ≠ 'e' := by decide

theorem ne_of_isDigit {c : Char} (h : c.isDigit = true) :
    c ≠ '+' ∧ c ≠ '-' ∧ c ≠ '.' ∧ c ≠ ':' ∧ c ≠ 'E' ∧ c ≠ 'e' := by
  refine ⟨?_, ?_, ?_, ?_, ?_, ?_⟩ <;>
    (rintro rfl; exact absurd h (by decide))

theorem digitsToNat_nil : digitsToNat [] = 0 := rfl

theorem foldl_digitsToNat (cs : List Char) :
    ∀ a : Nat, cs.foldl (fun a c => a * 10 + digitVal c) a = a * 10 ^ cs.length + digitsToNat cs := by
  induction cs with
  | nil => intro a; simp [digitsToNat]
  | cons c cs ih =>
      intro a
      have h1 : digitsToNat (c :: cs) = digitVal c * 10 ^ cs.length + digitsToNat cs := by
        show cs.foldl (fun a c => a * 10 + digitVal c) (0 * 10 + digitVal c) = _
        rw [ih]
        ring_nf
      show cs.foldl (fun a c => a * 10 + digitVal c) (a * 10 + digitVal c) = _
      rw [ih, h1, List.length_cons, pow_succ]
      ring

theorem digitsToNat_append (xs ys : List Char) :
    digitsToNat (xs ++ ys) = digitsToNat xs * 10 ^ ys.length + digitsToNat ys := by
  unfold digitsToNat
  rw [List.foldl_append, foldl_digitsToNat]
  rfl

theorem digitsToNat_singleton (c : Char) : digitsToNat [c] = digitVal c := by
  show 0 * 10 + digitVal c = digitVal c
  omega

theorem digitsToNat_replicate_zero : ∀ k, digitsToNat (List.replicate k '0') = 0 := by
  intro k
  induction k with
  | zero => rfl
  | succ k ih =>
      rw [List.replicate_succ]
      show List.foldl (fun a c => a * 10 + digitVal c) (0 * 10 + digitVal '0') _ = 0
      have : (0 * 10 + digitVal '0') = 0 := by decide
      rw [this]
      exact ih

theorem digitsToNat_zeros (k : Nat) (ys : List Char) :
    digitsToNat (List.replicate k '0' ++ ys) = digitsToNat ys := by
  rw [digitsToNat_append, digitsToNat_replicate_zero]
  omega

/-! ## Printing a natural number in base 10 (Python's `str` of an `int`).
Fuel-based so that the definition reduces definitionally. -/

def natReprAux : Nat → Nat → List Char
  | 0, _ => []
  | fuel + 1, n =>
      if n < 10 then [digitChar n] else natReprAux fuel (n / 10) ++ [digitChar (n % 10)]

/-- Base-10 digit string of a natural number, most significant digit first. -/
def natRepr (n : Nat) : List Char := natReprAux (n + 1) n

theorem natReprAux_succ (fuel n : Nat) :
    natReprAux (fuel + 1) n =
      if n < 10 then [digitChar n] else natReprAux fuel (n / 10) ++ [digitChar (n % 10)] := rfl

theorem natReprAux_spec : ∀ fuel n, n < 10 ^ (fuel + 1) →
    natReprAux (fuel + 1) n ≠ [] ∧ (∀ c ∈ natReprAux (fuel + 1) n, c.isDigit = true) ∧
      digitsToNat (natReprAux (fuel + 1) n) = n := by
  intro fuel
  induction fuel with
  | zero =>
      intro n hn
      have h10 : n < 10 := by simpa using hn
      simp only [natReprAux, if_pos h10]
      refine ⟨by simp, ?_, ?_⟩
      · intro c hc
        simp only [List.mem_singleton] at hc
        subst hc
        exact isDigit_digitChar n h10
      · rw [digitsToNat_singleton, digitVal_digitChar n h10]
  | succ fuel ih =>
      intro n hn
      by_cases h10 : n < 10
      · simp only [natReprAux, if_pos h10]
        refine ⟨by simp, ?_, ?_⟩
        · intro c hc
          simp only [List.mem_singleton] at hc
          subst hc
          exact isDigit_digitChar n h10
        · rw [digitsToNat_singleton, digitVal_digitChar n h10]
      · have hdiv : n / 10 < 10 ^ (fuel + 1) := by
          rw [Nat.div_lt_iff_lt_mul (by norm_num)]
          calc n < 10 ^ (fuel + 1 + 1) := hn
            _ = 10 ^ (fuel + 1) * 10 := by rw [pow_succ]
        obtain ⟨hne, hdig, hval⟩ := ih (n / 10) hdiv
        rw [natReprAux_succ, if_neg h10]
        refine ⟨by simp, ?_, ?_⟩
        · intro c hc
          rcases List.mem_append.1 hc with hc | hc
          · exact hdig c hc
          · simp only [List.mem_singleton] at hc
            subst hc
            exact isDigit_digitChar _ (Nat.mod_lt _ (by norm_num))
        · rw [digitsToNat_append, hval, digitsToNat_singleton,
            digitVal_digitChar _ (Nat.mod_lt _ (by norm_num))]
          simp only [List.length_singleton, pow_one]
          omega

theorem lt_ten_pow_succ (n : Nat) : n < 10 ^ (n + 1) := by
  calc n < 2 ^ n := Nat.lt_two_pow n
    _ ≤ 10 ^ n := Nat.pow_le_pow_left (by norm_num) n
    _ ≤ 10 ^ (n + 1) := Nat.pow_le_pow_right (by norm_num) (Nat.le_succ n)

theorem natRepr_ne_nil (n : Nat) : natRepr n ≠ [] :=
  (natReprAux_spec n n (lt_ten_pow_succ n)).1

theorem natRepr_digits (n : Nat) : ∀ c ∈ natRepr n, c.isDigit = true :=
  (natReprAux_spec n n (lt_ten_pow_succ n)).2.1

theorem digitsToNat_natRepr (n : Nat) : digitsToNat (natRepr n) = n :=
  (natReprAux_spec n n (lt_ten_pow_succ n)).2.2

theorem natRepr_exists_cons (n : Nat) :
    ∃ c t, natRepr n = c :: t ∧ c.isDigit = true := by
  rcases hc : natRepr n with _ | ⟨c, t⟩
  · exact absurd hc (natRepr_ne_nil n)
  · exact ⟨c, t, rfl, natRepr_digits n c (by rw [hc]; exact List.mem_cons_self c t)⟩

/-! ## Scanning helpers shared by the embedded CPython string parsers -/

theorem takeWhile_all {p : Char → Bool} {l : List Char} (h : ∀ c ∈ l, p c = true) :
    l.takeWhile p = l := by
  induction l with
  | nil => rfl
  | cons c l ih =>
      rw [List.takeWhile_cons_of_pos (h c (List.mem_cons_self c l))]
      rw [ih fun x hx => h x (List.mem_cons_of_mem c hx)]

theorem dropWhile_all {p : Char → Bool} {l : List Char} (h : ∀ c ∈ l, p c = true) :
    l.dropWhile p = [] := by
  induction l with
  | nil => rfl
  | cons c l ih =>
      rw [List.dropWhile_cons_of_pos (h c (List.mem_cons_self c l))]
      exact ih fun x hx => h x (List.mem_cons_of_mem c hx)

theorem takeWhile_append_stop {p : Char → Bool} {xs : List Char} {y : Char} {ys : List Char}
    (hx : ∀ c ∈ xs, p c = true) (hy : p y = false) :
    (xs ++ y :: ys).takeWhile p = xs := by
  induction xs with
  | nil =>
      rw [List.nil_append]
      exact List.takeWhile_cons_of_neg (by simp [hy])
  | cons c xs ih =>
      rw [List.cons_append, List.takeWhile_cons_of_pos (hx c (List.mem_cons_self c xs))]
      rw [ih fun x hxm => hx x (List.mem_cons_of_mem c hxm)]

theorem dropWhile_append_stop {p : Char → Bool} {xs : List Char} {y : Char} {ys : List Char}
    (hx : ∀ c ∈ xs, p c = true) (hy : p y = false) :
    (xs ++ y :: ys).dropWhile p = y :: ys := by
  induction xs with
  | nil =>
      rw [List.nil_append]
      exact List.dropWhile_cons_of_neg (by simp [hy])
  | cons c xs ih =>
      rw [List.cons_append, List.dropWhile_cons_of_pos (hx c (List.mem_cons_self c xs))]
      exact ih fun x hxm => hx x (List.mem_cons_of_mem c hxm)

/-- Reads exactly `k` ASCII digit characters (most significant first) into the
accumulator, as CPython's `parse_digits` does; fails on any non-digit. -/
def takeDigits : Nat → Nat → List Char → Option (Nat × List Char)
  | 0, acc, cs => some (acc, cs)
  | _ + 1, _, [] => none
  | k + 1, acc, c :: cs =>
      if c.isDigit then takeDigits k (acc * 10 + digitVal c) cs else none

theorem takeDigits_spec (ds : List Char) (h : ∀ c ∈ ds, c.isDigit = true) :
    ∀ (acc : Nat) (rest : List Char),
      takeDigits ds.length acc (ds ++ rest) = some (acc * 10 ^ ds.length + digitsToNat ds, rest) := by
  induction ds with
  | nil =>
      intro acc rest
      simp [takeDigits, digitsToNat]
  | cons c ds ih =>
      intro acc rest
      have hc : c.isDigit = true := h c (List.mem_cons_self c ds)
      have hds : ∀ x ∈ ds, x.isDigit = true := fun x hx => h x (List.mem_cons_of_mem c hx)
      show takeDigits (ds.length + 1) acc (c :: (ds ++ rest)) = _
      rw [takeDigits, if_pos hc, ih hds]
      have hval : digitsToNat (c :: ds) = digitVal c * 10 ^ ds.length + digitsToNat ds := by
        show ds.foldl (fun a c => a * 10 + digitVal c) (0 * 10 + digitVal c) = _
        rw [foldl_digitsToNat]
        ring_nf
      rw [hval, List.length_cons, pow_succ]
      ring_nf

/-! ## Zero-padded fixed-width printers (CPython's `"%02d"`, `"%04d"`, `"%06d"`,
restricted to the validated ranges of the date/time fields that use them). -/

def pad2 (n : Nat) : List Char := [digitChar (n / 10), digitChar (n % 10)]

def pad4 (n : Nat) : List Char :=
  [digitChar (n / 1000), digitChar (n / 100 % 10), digitChar (n / 10 % 10), digitChar (n % 10)]

def pad6 (n : Nat) : List Char :=
  [digitChar (n / 100000), digitChar (n / 10000 % 10), digitChar (n / 1000 % 10),
   digitChar (n / 100 % 10), digitChar (n / 10 % 10), digitChar (n % 10)]

theorem pad2_digits {n : Nat} (h : n < 100) : ∀ c ∈ pad2 n, c.isDigit = true := by
  intro c hc
  have h1 : n / 10 < 10 := by omega
  have h2 : n % 10 < 10 := by omega
  simp only [pad2, List.mem_cons, List.not_mem_nil, or_false] at hc
  rcases hc with rfl | rfl
  · exact isDigit_digitChar _ h1
  · exact isDigit_digitChar _ h2

theorem pad4_digits {n : Nat} (h : n < 10000) : ∀ c ∈ pad4 n, c.isDigit = true := by
  intro c hc
  have h1 : n / 1000 < 10 := by omega
  have h2 : n / 100 % 10 < 10 := by omega
  have h3 : n / 10 % 10 < 10 := by omega
  have h4 : n % 10 < 10 := by omega
  simp only [pad4, List.mem_cons, List.not_mem_nil, or_false] at hc
  rcases hc with rfl | rfl | rfl | rfl
  · exact isDigit_digitChar _ h1
  · exact isDigit_digitChar _ h2
  · exact isDigit_digitChar _ h3
  · exact isDigit_digitChar _ h4

theorem pad6_digits {n : Nat} (h : n < 1000000) : ∀ c ∈ pad6 n, c.isDigit = true := by
  intro c hc
  have h1 : n / 100000 < 10 := by omega
  have h2 : n / 10000 % 10 < 10 := by omega
  have h3 : n / 1000 % 10 < 10 := by omega
  have h4 : n / 100 % 10 < 10 := by omega
  have h5 : n / 10 % 10 < 10 := by omega
  have h6 : n % 10 < 10 := by omega
  simp only [pad6, List.mem_cons, List.not_mem_nil, or_false] at hc
  rcases hc with rfl | rfl | rfl | rfl | rfl | rfl
  · exact isDigit_digitChar _ h1
  · exact isDigit_digitChar _ h2
  · exact isDigit_digitChar _ h3
  · exact isDigit_digitChar _ h4
  · exact isDigit_digitChar _ h5
  · exact isDigit_digitChar _ h6

theorem digitsToNat_pad2 {n : Nat} (h : n < 100) : digitsToNat (pad2 n) = n := by
  have h1 : n / 10 < 10 := by omega
  have h2 : n % 10 < 10 := by omega
  show List.foldl (fun a c => a * 10 + digitVal c) 0 _ = n
  simp only [pad2, List.foldl_cons, List.foldl_nil, digitVal_digitChar _ h1,
    digitVal_digitChar _ h2]
  omega

theorem digitsToNat_pad4 {n : Nat} (h : n < 10000) : digitsToNat (pad4 n) = n := by
  have h1 : n / 1000 < 10 := by omega
  have h2 : n / 100 % 10 < 10 := by omega
  have h3 : n / 10 % 10 < 10 := by omega
  have h4 : n % 10 < 10 := by omega
  show List.foldl (fun a c => a * 10 + digitVal c) 0 _ = n
  simp only [pad4, List.foldl_cons, List.foldl_nil, digitVal_digitChar _ h1,
    digitVal_digitChar _ h2, digitVal_digitChar _ h3, digitVal_digitChar _ h4]
  omega

theorem digitsToNat_pad6 {n : Nat} (h : n < 1000000) : digitsToNat (pad6 n) = n := by
  have h1 : n / 100000 < 10 := by omega
  have h2 : n / 10000 % 10 < 10 := by omega
  have h3 : n / 1000 % 10 < 10 := by omega
  have h4 : n / 100 % 10 < 10 := by omega
  have h5 : n / 10 % 10 < 10 := by omega
  have h6 : n % 10 < 10 := by omega
  show List.foldl (fun a c => a * 10 + digitVal c) 0 _ = n
  simp only [pad6, List.foldl_cons, List.foldl_nil, digitVal_digitChar _ h1,
    digitVal_digitChar _ h2, digitVal_digitChar _ h3, digitVal_digitChar _ h4,
    digitVal_digitChar _ h5, digitVal_digitChar _ h6]
  omega

theorem takeDigits_pad2 {n : Nat} (h : n < 100) (rest : List Char) :
    takeDigits 2 0 (pad2 n ++ rest) = some (n, rest) := by
  have e : (2 : Nat) = (pad2 n).length := rfl
  rw [e, takeDigits_spec (pad2 n) (pad2_digits h) 0 rest, digitsToNat_pad2 h]
  norm_num

theorem takeDigits_pad4 {n : Nat} (h : n < 10000) (rest : List Char) :
    takeDigits 4 0 (pad4 n ++ rest) = some (n, rest) := by
  have e : (4 : Nat) = (pad4 n).length := rfl
  rw [e, takeDigits_spec (pad4 n) (pad4_digits h) 0 rest, digitsToNat_pad4 h]
  norm_num

theorem takeDigits_pad6 {n : Nat} (h : n < 1000000) (rest : List Char) :
    takeDigits 6 0 (pad6 n ++ rest) = some (n, rest) := by
  have e : (6 : Nat) = (pad6 n).length := rfl
  rw [e, takeDigits_spec (pad6 n) (pad6_digits h) 0 rest, digitsToNat_pad6 h]
  norm_num

/-- Consumes one expected literal character. -/
def expectChar (c : Char) : List Char → Option (List Char)
  | x :: r => if x = c then some r else none
  | [] => none

theorem expectChar_cons_self (c : Char) (r : List Char) : expectChar c (c :: r) = some r := by
  simp [expectChar]

/-- Leading-sign scan of Python's numeric-string grammars (`[+-]?`). -/
def parseSign : List Char → Bool × List Char
  | [] => (false, [])
  | c :: r =>
      if c = '-' then (true, r) else if c = '+' then (false, r) else (false, c :: r)

theorem parseSign_neg (r : List Char) : parseSign ('-' :: r) = (true, r) := by
  simp [parseSign]

theorem parseSign_pos (r : List Char) : parseSign ('+' :: r) = (false, r) := by
  simp [parseSign]

theorem parseSign_other {c : Char} (r : List Char) (h1 : c ≠ '-') (h2 : c ≠ '+') :
    parseSign (c :: r) = (false, c :: r) := by
  simp [parseSign, h1, h2]

@[simp] theorem obind_some {α β : Type} (a : α) (f : α → Option β) : (some a >>= f) = f a := rfl

@[simp] theorem obind_none {α β : Type} (f : α → Option β) :
    ((none : Option α) >>= f) = none := rfl

@[simp] theorem ebind_ok {ε α β : Type} (a : α) (f : α → Except ε β) :
    (Except.ok a >>= f) = f a := rfl

@[simp] theorem ebind_error {ε α β : Type} (e : ε) (f : α → Except ε β) :
    ((Except.error e : Except ε α) >>= f) = Except.error e := rfl

@[simp] theorem epure_eq_ok {ε α : Type} (a : α) : (pure a : Except ε α) = Except.ok a := rfl

/-! ## Python `Decimal`

A finite Python `Decimal` is a sign, a coefficient and an exponent
(`Decimal.as_tuple()`); the coefficient is kept as a `Nat`, which matches
CPython's canonical `_int` digit string (no leading zeros except a single
`"0"`).  `PyDecimal.str` is CPython's `_pydecimal.Decimal.__str__` for finite
values; `decimalFromChars` is the constructor's numeric-string grammar
`[+-]? ( digits [. digits*] | . digits+ ) ( [eE] [+-]? digits )?` for ordinary
finite inputs (special values `Inf`/`NaN`, underscores and surrounding
whitespace are outside the flows modelled here). -/

structure PyDecimal where
  sign : Bool
  coeff : Nat
  exp : Int
deriving DecidableEq, Repr

/-- CPython writes the exponent with `"%+d"`: an explicit sign, then digits. -/
def signedIntChars (v : Int) : List Char :=
  (if v < 0 then '-' else '+') :: natRepr v.natAbs

/-- The `leftdigits` local of `Decimal.__str__`: exponent plus number of
coefficient digits. -/
def decLeft (d : PyDecimal) : Int := d.exp + (natRepr d.coeff).length

/-- The `dotplace` local of `Decimal.__str__` (non-engineering format). -/
def decDotplace (d : PyDecimal) : Int :=
  if d.exp ≤ 0 ∧ -6 < decLeft d then decLeft d else 1

/-- Exponent suffix of `Decimal.__str__`: empty in positional form, otherwise
`E%+d` of `leftdigits - dotplace` (capital `E`, the default context). -/
def decExpChars (d : PyDecimal) : List Char :=
  if d.exp ≤ 0 ∧ -6 < decLeft d then [] else 'E' :: signedIntChars (decLeft d - 1)

/-- The `intpart`/`fracpart` body of `Decimal.__str__`. -/
def decBody (d : PyDecimal) : List Char :=
  if decDotplace d ≤ 0 then
    '0' :: '.' :: (List.replicate (-decDotplace d).toNat '0' ++ natRepr d.coeff)
  else if ((natRepr d.coeff).length : Int) ≤ decDotplace d then
    natRepr d.coeff ++ List.replicate (decDotplace d - (natRepr d.coeff).length).toNat '0'
  else
    (natRepr d.coeff).take (decDotplace d).toNat ++
      '.' :: (natRepr d.coeff).drop (decDotplace d).toNat

/-- Python `str(decimal)` as a character list. -/
def PyDecimal.strChars (d : PyDecimal) : List Char :=
  (if d.sign then ['-'] else []) ++ decBody d ++ decExpChars d

/-- Python `str(decimal)`. -/
def PyDecimal.str (d : PyDecimal) : String := String.mk d.strChars

/-- Splits an optional `. digits*` fraction off the remainder after the
integer digits (`ip`); yields `(ip, fraction digits, remainder)`. -/
def splitFraction (ip : List Char) : List Char → List Char × List Char × List Char
  | '.' :: r => (ip, r.takeWhile Char.isDigit, r.dropWhile Char.isDigit)
  | cs2 => (ip, [], cs2)

/-- Mantissa split of the `Decimal` constructor:
integer digits, fraction digits, and the unconsumed remainder. -/
def splitMantissa (cs1 : List Char) : List Char × List Char × List Char :=
  splitFraction (cs1.takeWhile Char.isDigit) (cs1.dropWhile Char.isDigit)

/-- Optional `[eE][+-]?digits` exponent suffix; the parsed exponent is added
to the fraction-induced exponent, and the whole remainder must be consumed. -/
def decimalExpPart (coeff : Nat) (fexp : Int) : List Char → Option (Nat × Int)
  | [] => some (coeff, fexp)
  | c :: r =>
      if c = 'e' ∨ c = 'E' then
        if ((parseSign r).2.takeWhile Char.isDigit).isEmpty
            || !((parseSign r).2.dropWhile Char.isDigit).isEmpty then none
        else
          some (coeff,
            (if (parseSign r).1 then -(digitsToNat ((parseSign r).2.takeWhile Char.isDigit) : Int)
             else (digitsToNat ((parseSign r).2.takeWhile Char.isDigit) : Int)) + fexp)
      else none

/-- Unsigned part of the `Decimal` constructor's numeric-string parse:
returns coefficient and exponent. -/
def decimalCore (cs1 : List Char) : Option (Nat × Int) :=
  if (splitMantissa cs1).1.isEmpty && (splitMantissa cs1).2.1.isEmpty then none
  else
    decimalExpPart (digitsToNat ((splitMantissa cs1).1 ++ (splitMantissa cs1).2.1))
      (-(((splitMantissa cs1).2.1.length : Nat) : Int)) (splitMantissa cs1).2.2

/-- The `Decimal(string)` constructor on ordinary finite numeric strings. -/
def decimalFromChars (cs : List Char) : Option PyDecimal :=
  (decimalCore (parseSign cs).2).map fun ce => ⟨(parseSign cs).1, ce.1, ce.2⟩

/-- String-level wrapper for `Decimal(s)`. -/
def decimalFromString (s : String) : Option PyDecimal := decimalFromChars s.toList

/-! ### Exact round-trip of `Decimal(str(d))` -/

theorem replicate_zero_digits (k : Nat) : ∀ c ∈ List.replicate k '0', c.isDigit = true := by
  intro c hc
  rw [List.eq_of_mem_replicate hc]
  decide

theorem splitMantissa_dot {xs : List Char} (hx : ∀ c ∈ xs, c.isDigit = true) (t : List Char) :
    splitMantissa (xs ++ '.' :: t) = (xs, t.takeWhile Char.isDigit, t.dropWhile Char.isDigit) := by
  unfold splitMantissa
  rw [takeWhile_append_stop hx (by decide), dropWhile_append_stop hx (by decide)]
  rfl

theorem splitMantissa_all {xs : List Char} (hx : ∀ c ∈ xs, c.isDigit = true) :
    splitMantissa xs = (xs, [], []) := by
  unfold splitMantissa
  rw [takeWhile_all hx, dropWhile_all hx]
  rfl

theorem splitMantissa_expHead {xs : List Char} (hx : ∀ c ∈ xs, c.isDigit = true)
    (ys : List Char) :
    splitMantissa (xs ++ 'E' :: ys) = (xs, [], 'E' :: ys) := by
  unfold splitMantissa
  rw [takeWhile_append_stop hx (by decide), dropWhile_append_stop hx (by decide)]
  rfl

theorem decimalExpPart_nil (coeff : Nat) (fexp : Int) :
    decimalExpPart coeff fexp [] = some (coeff, fexp) := rfl

theorem decimalExpPart_E (coeff : Nat) (fexp v : Int) :
    decimalExpPart coeff fexp ('E' :: signedIntChars v) = some (coeff, v + fexp) := by
  have hdig := natRepr_digits v.natAbs
  have hne := natRepr_ne_nil v.natAbs
  have hnonempty : (natRepr v.natAbs).isEmpty = false := by
    cases hc : natRepr v.natAbs with
    | nil => exact absurd hc hne
    | cons c t => rfl
  rw [decimalExpPart, if_pos (Or.inr rfl)]
  by_cases hv : v < 0
  · rw [show signedIntChars v = '-' :: natRepr v.natAbs from by rw [signedIntChars, if_pos hv],
      parseSign_neg]
    simp only [takeWhile_all hdig, dropWhile_all hdig, hnonempty, List.isEmpty_nil,
      Bool.not_true, Bool.or_false, Bool.false_eq_true, if_false, if_true,
      digitsToNat_natRepr]
    have : -((v.natAbs : Nat) : Int) = v := by omega
    rw [this]
  · rw [show signedIntChars v = '+' :: natRepr v.natAbs from by rw [signedIntChars, if_neg hv],
      parseSign_pos]
    simp only [takeWhile_all hdig, dropWhile_all hdig, hnonempty, List.isEmpty_nil,
      Bool.not_true, Bool.or_false, Bool.false_eq_true, if_false, if_true,
      digitsToNat_natRepr]
    have : ((v.natAbs : Nat) : Int) = v := by omega
    rw [this]

theorem decimalCore_body (d : PyDecimal) :
    decimalCore (decBody d ++ decExpChars d) = some (d.coeff, d.exp) := by
  have hdig := natRepr_digits d.coeff
  have hne := natRepr_ne_nil d.coeff
  have hval := digitsToNat_natRepr d.coeff
  have hL : decLeft d = d.exp + ((natRepr d.coeff).length : Int) := rfl
  have hnlen : 0 < (natRepr d.coeff).length := List.length_pos.2 hne
  obtain ⟨c0, t0, hcons, hc0⟩ := natRepr_exists_cons d.coeff
  by_cases hpos : d.exp ≤ 0 ∧ -6 < decLeft d
  · have hexp0 : decExpChars d = [] := by rw [decExpChars, if_pos hpos]
    have hdp : decDotplace d = decLeft d := by rw [decDotplace, if_pos hpos]
    rw [hexp0, List.append_nil]
    by_cases hle : decDotplace d ≤ 0
    · -- "0.00…digits" form
      have hbody : decBody d =
          '0' :: '.' :: (List.replicate (-decDotplace d).toNat '0' ++ natRepr d.coeff) := by
        unfold decBody
        rw [if_pos hle]
      have hall : ∀ c ∈ List.replicate (-decDotplace d).toNat '0' ++ natRepr d.coeff,
          c.isDigit = true := by
        intro c hc
        rcases List.mem_append.1 hc with hc | hc
        · exact replicate_zero_digits _ c hc
        · exact hdig c hc
      have hm : splitMantissa
            ('0' :: '.' :: (List.replicate (-decDotplace d).toNat '0' ++ natRepr d.coeff)) =
          (['0'], List.replicate (-decDotplace d).toNat '0' ++ natRepr d.coeff, []) := by
        show splitMantissa ((['0'] : List Char) ++ '.' :: _) = _
        rw [splitMantissa_dot (by decide), takeWhile_all hall, dropWhile_all hall]
      rw [hbody, decimalCore, hm, if_neg (by simp)]
      rw [decimalExpPart_nil]
      simp only [Option.some.injEq, Prod.mk.injEq]
      constructor
      · rw [show (['0'] : List Char) ++ (List.replicate (-decDotplace d).toNat '0' ++ natRepr d.coeff)
            = List.replicate ((-decDotplace d).toNat + 1) '0' ++ natRepr d.coeff from by
          rw [List.replicate_succ, List.singleton_append, List.cons_append]]
        rw [digitsToNat_zeros, hval]
      · rw [List.length_append, List.length_replicate]
        omega
    · by_cases hnb : ((natRepr d.coeff).length : Int) ≤ decDotplace d
      · -- pure integer form (exponent zero)
        have hdz : d.exp = 0 := by omega
        have hbody : decBody d = natRepr d.coeff := by
          unfold decBody
          rw [if_neg hle, if_pos hnb,
            show (decDotplace d - (natRepr d.coeff).length).toNat = 0 from by omega,
            List.replicate_zero, List.append_nil]
        rw [hbody, decimalCore, splitMantissa_all hdig,
          if_neg (by simp [hcons])]
        rw [decimalExpPart_nil]
        simp only [Option.some.injEq, Prod.mk.injEq]
        constructor
        · rw [List.append_nil, hval]
        · simp [hdz]
      · -- "digits.digits" form
        have hmpos : (0 : Int) < decDotplace d := by omega
        have hmint : ((decDotplace d).toNat : Int) = decDotplace d := by omega
        have hmlt : (decDotplace d).toNat < (natRepr d.coeff).length := by omega
        have hm1 : 0 < (decDotplace d).toNat := by omega
        have hbody : decBody d = (natRepr d.coeff).take (decDotplace d).toNat ++
            '.' :: (natRepr d.coeff).drop (decDotplace d).toNat := by
          unfold decBody
          rw [if_neg hle, if_neg hnb]
        have htakedig : ∀ c ∈ (natRepr d.coeff).take (decDotplace d).toNat, c.isDigit = true :=
          fun c hc => hdig c (List.take_subset _ _ hc)
        have hdropdig : ∀ c ∈ (natRepr d.coeff).drop (decDotplace d).toNat, c.isDigit = true :=
          fun c hc => hdig c (List.drop_subset _ _ hc)
        have htake : (natRepr d.coeff).take (decDotplace d).toNat =
            c0 :: t0.take ((decDotplace d).toNat - 1) := by
          rw [hcons, List.take_cons hm1]
        rw [hbody, decimalCore, splitMantissa_dot htakedig, takeWhile_all hdropdig,
          dropWhile_all hdropdig, if_neg (by simp [htake])]
        rw [decimalExpPart_nil]
        simp only [Option.some.injEq, Prod.mk.injEq]
        constructor
        · rw [List.take_append_drop, hval]
        · rw [List.length_drop]
          omega
  · have hexpc : decExpChars d = 'E' :: signedIntChars (decLeft d - 1) := by
      rw [decExpChars, if_neg hpos]
    have hdp1 : decDotplace d = 1 := by rw [decDotplace, if_neg hpos]
    have hle : ¬ decDotplace d ≤ 0 := by omega
    by_cases hn1 : ((natRepr d.coeff).length : Int) ≤ decDotplace d
    · -- single digit, "dE+k" form
      have hn : (natRepr d.coeff).length = 1 := by omega
      have hbody : decBody d = natRepr d.coeff := by
        unfold decBody
        rw [if_neg hle, if_pos hn1,
          show (decDotplace d - (natRepr d.coeff).length).toNat = 0 from by omega,
          List.replicate_zero, List.append_nil]
      rw [hbody, hexpc, decimalCore, splitMantissa_expHead hdig, if_neg (by simp [hcons])]
      rw [decimalExpPart_E]
      simp only [Option.some.injEq, Prod.mk.injEq]
      constructor
      · rw [List.append_nil, hval]
      · simp only [List.length_nil]
        omega
    · -- "d.dddE+k" form
      have hbody : decBody d = (natRepr d.coeff).take (decDotplace d).toNat ++
          '.' :: (natRepr d.coeff).drop (decDotplace d).toNat := by
        unfold decBody
        rw [if_neg hle, if_neg hn1]
      have htakedig : ∀ c ∈ (natRepr d.coeff).take (decDotplace d).toNat, c.isDigit = true :=
        fun c hc => hdig c (List.take_subset _ _ hc)
      have hdropdig : ∀ c ∈ (natRepr d.coeff).drop (decDotplace d).toNat, c.isDigit = true :=
        fun c hc => hdig c (List.drop_subset _ _ hc)
      have htake : (natRepr d.coeff).take (decDotplace d).toNat =
          c0 :: t0.take ((decDotplace d).toNat - 1) := by
        rw [hcons, List.take_cons (by omega)]
      rw [hbody, hexpc, List.append_assoc, List.cons_append, decimalCore,
        splitMantissa_dot htakedig,
        takeWhile_append_stop hdropdig (by decide),
        dropWhile_append_stop hdropdig (by decide),
        if_neg (by simp [htake])]
      rw [decimalExpPart_E]
      simp only [Option.some.injEq, Prod.mk.injEq]
      constructor
      · rw [List.take_append_drop, hval]
      · rw [List.length_drop]
        omega

/-- The body emitted by `Decimal.__str__` starts with a digit. -/
theorem decBody_exists_cons (d : PyDecimal) :
    ∃ c t, decBody d = c :: t ∧ c.isDigit = true := by
  obtain ⟨c0, t0, hcons, hc0⟩ := natRepr_exists_cons d.coeff
  unfold decBody
  by_cases hle : decDotplace d ≤ 0
  · rw [if_pos hle]
    exact ⟨'0', _, rfl, by decide⟩
  · by_cases hnb : ((natRepr d.coeff).length : Int) ≤ decDotplace d
    · rw [if_neg hle, if_pos hnb, hcons, List.cons_append]
      exact ⟨c0, _, rfl, hc0⟩
    · rw [if_neg hle, if_neg hnb, hcons, List.take_cons (by omega), List.cons_append]
      exact ⟨c0, _, rfl, hc0⟩

/-- Round-trip `Decimal(str(d)) = d`: string conversion of a Python decimal is exact. -/
theorem decimalFromChars_strChars (d : PyDecimal) :
    decimalFromChars d.strChars = some d := by
  obtain ⟨sg, c, e⟩ := d
  obtain ⟨c0, t0, hcons, hc0⟩ := decBody_exists_cons ⟨sg, c, e⟩
  cases sg with
  | true =>
      have hs : PyDecimal.strChars ⟨true, c, e⟩ =
          '-' :: (decBody ⟨true, c, e⟩ ++ decExpChars ⟨true, c, e⟩) := by
        rw [PyDecimal.strChars, if_pos rfl, List.singleton_append, List.cons_append]
      rw [decimalFromChars, hs, parseSign_neg, decimalCore_body]
      rfl
  | false =>
      have hs : PyDecimal.strChars ⟨false, c, e⟩ =
          decBody ⟨false, c, e⟩ ++ decExpChars ⟨false, c, e⟩ := by
        rw [PyDecimal.strChars, if_neg (by simp), List.nil_append]
      rw [decimalFromChars, hs]
      rw [show decBody ⟨false, c, e⟩ ++ decExpChars ⟨false, c, e⟩ =
          c0 :: (t0 ++ decExpChars ⟨false, c, e⟩) from by rw [hcons, List.cons_append]]
      rw [parseSign_other _ (ne_of_isDigit hc0).2.1 (ne_of_isDigit hc0).1]
      rw [show c0 :: (t0 ++ decExpChars ⟨false, c, e⟩) =
          decBody ⟨false, c, e⟩ ++ decExpChars ⟨false, c, e⟩ from by rw [hcons, List.cons_append]]
      rw [decimalCore_body]
      rfl

/-! ## Python `date`

`datetime.date` objects are always valid by construction (the constructor
checks the ranges); `PyDate.valid` captures exactly that check.
`isoformat` is `"%04d-%02d-%02d"`; `fromisoformat` is the strict
`YYYY-MM-DD` parser of CPython's C implementation followed by the `date`
constructor's range validation. -/

structure PyDate where
  year : Nat
  month : Nat
  day : Nat
deriving DecidableEq, Repr

def isLeapYear (y : Nat) : Bool := y % 4 == 0 && (y % 100 != 0 || y % 400 == 0)

def daysInMonth (y m : Nat) : Nat :=
  if m = 2 then (if isLeapYear y then 29 else 28)
  else if m = 4 ∨ m = 6 ∨ m = 9 ∨ m = 11 then 30
  else 31

/-- The range checks of the `datetime.date` constructor
(`MINYEAR = 1`, `MAXYEAR = 9999`). -/
def PyDate.valid (d : PyDate) : Bool :=
  decide (1 ≤ d.year) && decide (d.year ≤ 9999) && decide (1 ≤ d.month) &&
    decide (d.month ≤ 12) && decide (1 ≤ d.day) && decide (d.day ≤ daysInMonth d.year d.month)

def PyDate.isoChars (d : PyDate) : List Char :=
  pad4 d.year ++ '-' :: (pad2 d.month ++ '-' :: pad2 d.day)

/-- Python `date.isoformat()`. -/
def PyDate.isoformat (d : PyDate) : String := String.mk d.isoChars

/-- The `date(year, month, day)` constructor: validates and builds. -/
def mkDate (y m d : Nat) : Option PyDate :=
  if PyDate.valid ⟨y, m, d⟩ then some ⟨y, m, d⟩ else none

/-- Python `date.fromisoformat`: exactly `YYYY-MM-DD`, then the constructor. -/
def dateFromIsoChars (cs : List Char) : Option PyDate := do
  let (y, r1) ← takeDigits 4 0 cs
  let r2 ← expectChar '-' r1
  let (m, r3) ← takeDigits 2 0 r2
  let r4 ← expectChar '-' r3
  let (d, r5) ← takeDigits 2 0 r4
  if r5.isEmpty then mkDate y m d else none

/-- String-level `date.fromisoformat`. -/
def dateFromIsoformat (s : String) : Option PyDate := dateFromIsoChars s.toList

theorem PyDate.valid_bounds {d : PyDate} (h : d.valid = true) :
    1 ≤ d.year ∧ d.year ≤ 9999 ∧ 1 ≤ d.month ∧ d.month ≤ 12 ∧ 1 ≤ d.day ∧
      d.day ≤ daysInMonth d.year d.month := by
  simp only [PyDate.valid, Bool.and_eq_true, decide_eq_true_eq] at h
  tauto

theorem daysInMonth_le_31 (y m : Nat) : daysInMonth y m ≤ 31 := by
  unfold daysInMonth
  split
  · split <;> omega
  · split <;> omega

theorem takeDigits_pad2_nil {n : Nat} (h : n < 100) : takeDigits 2 0 (pad2 n) = some (n, []) := by
  have h2 := takeDigits_pad2 h []
  rwa [List.append_nil] at h2

theorem dateFromIsoChars_isoChars {d : PyDate} (h : d.valid = true) :
    dateFromIsoChars d.isoChars = some d := by
  obtain ⟨h1, h2, h3, h4, h5, h6⟩ := PyDate.valid_bounds h
  have hy : d.year < 10000 := by omega
  have hm : d.month < 100 := by omega
  have hd : d.day < 100 := by
    have := daysInMonth_le_31 d.year d.month
    omega
  simp only [dateFromIsoChars, PyDate.isoChars, takeDigits_pad4 hy, obind_some,
    expectChar_cons_self, takeDigits_pad2 hm, takeDigits_pad2_nil hd,
    List.isEmpty_nil, if_true]
  rw [mkDate, if_pos h]

/-! ## Python `datetime`

A (possibly timezone-aware) `datetime.datetime` with a fixed-offset
`timezone` as `tzinfo`.  The offset is kept in whole seconds (CPython
additionally allows sub-second offsets, which no flow here produces).
`isoformat` is the default `sep='T'`, `timespec='auto'` form; the parser is
CPython's `datetime.fromisoformat` of Python ≤ 3.10 (strict two-digit
components; any single separator character after the 10-character date). -/

structure PyDatetime where
  year : Nat
  month : Nat
  day : Nat
  hour : Nat
  minute : Nat
  second : Nat
  microsecond : Nat
  tzoffset : Option Int
deriving DecidableEq, Repr

/-- Range checks of the `datetime` constructor plus the `timezone`
constructor's strict `±24h` bound on the offset. -/
def PyDatetime.valid (t : PyDatetime) : Bool :=
  PyDate.valid ⟨t.year, t.month, t.day⟩ && decide (t.hour ≤ 23) && decide (t.minute ≤ 59) &&
    decide (t.second ≤ 59) && decide (t.microsecond ≤ 999999) &&
    (match t.tzoffset with
     | none => true
     | some off => decide (off.natAbs < 86400))

/-- CPython `_format_offset`: `±HH:MM`, with a `:SS` part only for sub-minute offsets. -/
def offsetChars (off : Int) : List Char :=
  (if off < 0 then '-' else '+') ::
    (pad2 (off.natAbs / 3600) ++ ':' ::
      (pad2 (off.natAbs / 60 % 60) ++
        (if off.natAbs % 60 = 0 then [] else ':' :: pad2 (off.natAbs % 60))))

def PyDatetime.isoChars (t : PyDatetime) : List Char :=
  PyDate.isoChars ⟨t.year, t.month, t.day⟩ ++ 'T' ::
    (pad2 t.hour ++ ':' ::
      (pad2 t.minute ++ ':' ::
        (pad2 t.second ++
          (if t.microsecond = 0 then [] else '.' :: pad6 t.microsecond) ++
          (match t.tzoffset with
           | none => []
           | some off => offsetChars off))))

/-- Python `datetime.isoformat()`. -/
def PyDatetime.isoformat (t : PyDatetime) : String := String.mk t.isoChars

/-- Splits at the first `'+'`/`'-'`, which begins the timezone designator in
an isoformat time string (CPython scans for it the same way). -/
def splitAtSign : List Char → List Char × List Char
  | [] => ([], [])
  | c :: r =>
      if c = '+' ∨ c = '-' then ([], c :: r)
      else ((splitAtSign r).1.cons c, (splitAtSign r).2)

/-- The exactly-3-or-6-digit fractional-second component. -/
def parseFraction (cs : List Char) : Option Nat :=
  if cs.length = 3 then
    (takeDigits 3 0 cs).bind fun vr => if vr.2.isEmpty then some (vr.1 * 1000) else none
  else if cs.length = 6 then
    (takeDigits 6 0 cs).bind fun vr => if vr.2.isEmpty then some vr.1 else none
  else none

/-- CPython's `parse_hh_mm_ss_ff`: `HH[:MM[:SS[.fff[fff]]]]`, consuming the
whole string. -/
def parseHMSF (cs : List Char) : Option (Nat × Nat × Nat × Nat) := do
  let (h, r1) ← takeDigits 2 0 cs
  match r1 with
  | [] => some (h, 0, 0, 0)
  | ':' :: r2 => do
      let (m, r3) ← takeDigits 2 0 r2
      match r3 with
      | [] => some (h, m, 0, 0)
      | ':' :: r4 => do
          let (s, r5) ← takeDigits 2 0 r4
          match r5 with
          | [] => some (h, m, s, 0)
          | '.' :: r6 => do
              let us ← parseFraction r6
              some (h, m, s, us)
          | _ => none
      | _ => none
  | _ => none

/-- Builds the offset (in seconds) from the parsed timezone components and the
sign character, applying the `timezone` constructor's strict `±24h` range
check.  Sub-second offsets are not representable in this model and are
rejected (no flow here produces them). -/
def tzFromParts (c : Char) : Option (Nat × Nat × Nat × Nat) → Option Int
  | some (h, m, s, us) =>
      if us = 0 then
        if (h * 3600 + m * 60 + s : Nat) < 86400 then
          some ((if c = '-' then -1 else 1) * ((h * 3600 + m * 60 + s : Nat) : Int))
        else none
      else none
  | none => none

/-- Timezone designator after the sign: `HH:MM`, `HH:MM:SS` or
`HH:MM:SS.ffffff` (length 5, 8 or 15). -/
def parseTzTail (c : Char) (rest : List Char) : Option Int :=
  if rest.length = 5 ∨ rest.length = 8 ∨ rest.length = 15 then
    tzFromParts c (parseHMSF rest)
  else none

/-- Timezone designator: a sign then `HH:MM`, `HH:MM:SS` or `HH:MM:SS.ffffff`. -/
def parseTzChars : List Char → Option Int
  | c :: rest => parseTzTail c rest
  | [] => none

/-- The `datetime(...)` constructor: validates and builds. -/
def mkDatetime (y mo d h mi s us : Nat) (tz : Option Int) : Option PyDatetime :=
  if PyDatetime.valid ⟨y, mo, d, h, mi, s, us, tz⟩ then some ⟨y, mo, d, h, mi, s, us, tz⟩
  else none

/-- Python `datetime.fromisoformat` (Python ≤ 3.10): strict `YYYY-MM-DD`, then an
arbitrary single separator character, then `HH[:MM[:SS[.fff[fff]]]]` with an
optional timezone designator. -/
def datetimeFromIsoChars (cs : List Char) : Option PyDatetime := do
  let (y, r1) ← takeDigits 4 0 cs
  let r2 ← expectChar '-' r1
  let (mo, r3) ← takeDigits 2 0 r2
  let r4 ← expectChar '-' r3
  let (d, r5) ← takeDigits 2 0 r4
  match r5 with
  | [] => mkDatetime y mo d 0 0 0 0 none
  | _sep :: tstr => do
      let (hh, mi, ss, us) ← parseHMSF (splitAtSign tstr).1
      let tz ← (match (splitAtSign tstr).2 with
        | [] => some (none : Option Int)
        | tzcs => (parseTzChars tzcs).map some)
      mkDatetime y mo d hh mi ss us tz

/-- String-level `datetime.fromisoformat`. -/
def datetimeFromIsoformat (s : String) : Option PyDatetime :=
  datetimeFromIsoChars s.toList

/-! ### Round-trip of `datetime.fromisoformat(t.isoformat())` -/

theorem takeDigits_pad6_nil {n : Nat} (h : n < 1000000) :
    takeDigits 6 0 (pad6 n) = some (n, []) := by
  have h2 := takeDigits_pad6 h []
  rwa [List.append_nil] at h2

theorem parseFraction_pad6 {n : Nat} (h : n < 1000000) : parseFraction (pad6 n) = some n := by
  have hl : (pad6 n).length = 6 := rfl
  unfold parseFraction
  rw [hl, if_neg (by norm_num), if_pos rfl, takeDigits_pad6_nil h]
  simp

theorem parseHMSF_hm {H M : Nat} (hH : H < 100) (hM : M < 100) :
    parseHMSF (pad2 H ++ ':' :: pad2 M) = some (H, M, 0, 0) := by
  simp only [parseHMSF, takeDigits_pad2 hH, obind_some, takeDigits_pad2_nil hM]

theorem parseHMSF_hms {H M S : Nat} (hH : H < 100) (hM : M < 100) (hS : S < 100) :
    parseHMSF (pad2 H ++ ':' :: (pad2 M ++ ':' :: pad2 S)) = some (H, M, S, 0) := by
  simp only [parseHMSF, takeDigits_pad2 hH, takeDigits_pad2 hM, obind_some,
    takeDigits_pad2_nil hS]

theorem parseHMSF_hmsf {H M S F : Nat} (hH : H < 100) (hM : M < 100) (hS : S < 100)
    (hF : F < 1000000) :
    parseHMSF (pad2 H ++ ':' :: (pad2 M ++ ':' :: (pad2 S ++ '.' :: pad6 F))) =
      some (H, M, S, F) := by
  simp only [parseHMSF, takeDigits_pad2 hH, takeDigits_pad2 hM, takeDigits_pad2 hS,
    obind_some, parseFraction_pad6 hF]

theorem splitAtSign_all {l : List Char} (h : ∀ c ∈ l, c ≠ '+' ∧ c ≠ '-') :
    splitAtSign l = (l, []) := by
  induction l with
  | nil => rfl
  | cons c r ih =>
      have hc := h c (List.mem_cons_self c r)
      rw [splitAtSign, if_neg (by tauto)]
      rw [ih fun x hx => h x (List.mem_cons_of_mem c hx)]

theorem splitAtSign_append {xs : List Char} {s : Char} {ys : List Char}
    (h : ∀ c ∈ xs, c ≠ '+' ∧ c ≠ '-') (hs : s = '+' ∨ s = '-') :
    splitAtSign (xs ++ s :: ys) = (xs, s :: ys) := by
  induction xs with
  | nil =>
      rw [List.nil_append, splitAtSign, if_pos (by tauto)]
  | cons c r ih =>
      have hc := h c (List.mem_cons_self c r)
      rw [List.cons_append, splitAtSign, if_neg (by tauto)]
      rw [ih fun x hx => h x (List.mem_cons_of_mem c hx)]

theorem pad2_no_sign {n : Nat} (h : n < 100) : ∀ c ∈ pad2 n, c ≠ '+' ∧ c ≠ '-' :=
  fun c hc => ⟨(ne_of_isDigit (pad2_digits h c hc)).1, (ne_of_isDigit (pad2_digits h c hc)).2.1⟩

theorem pad6_no_sign {n : Nat} (h : n < 1000000) : ∀ c ∈ pad6 n, c ≠ '+' ∧ c ≠ '-' :=
  fun c hc => ⟨(ne_of_isDigit (pad6_digits h c hc)).1, (ne_of_isDigit (pad6_digits h c hc)).2.1⟩

theorem parseTzChars_offsetChars {off : Int} (hb : off.natAbs < 86400) :
    parseTzChars (offsetChars off) = some off := by
  have hH : off.natAbs / 3600 < 100 := by omega
  have hM : off.natAbs / 60 % 60 < 100 := by omega
  have hS : off.natAbs % 60 < 100 := by omega
  have hrest : parseHMSF (pad2 (off.natAbs / 3600) ++ ':' ::
      (pad2 (off.natAbs / 60 % 60) ++
        (if off.natAbs % 60 = 0 then [] else ':' :: pad2 (off.natAbs % 60)))) =
      some (off.natAbs / 3600, off.natAbs / 60 % 60, off.natAbs % 60, 0) := by
    by_cases hz : off.natAbs % 60 = 0
    · rw [if_pos hz, List.append_nil, parseHMSF_hm hH hM, hz]
    · rw [if_neg hz, parseHMSF_hms hH hM hS]
  have hlen : (pad2 (off.natAbs / 3600) ++ ':' ::
      (pad2 (off.natAbs / 60 % 60) ++
        (if off.natAbs % 60 = 0 then [] else ':' :: pad2 (off.natAbs % 60)))).length = 5 ∨
      (pad2 (off.natAbs / 3600) ++ ':' ::
      (pad2 (off.natAbs / 60 % 60) ++
        (if off.natAbs % 60 = 0 then [] else ':' :: pad2 (off.natAbs % 60)))).length = 8 ∨
      (pad2 (off.natAbs / 3600) ++ ':' ::
      (pad2 (off.natAbs / 60 % 60) ++
        (if off.natAbs % 60 = 0 then [] else ':' :: pad2 (off.natAbs % 60)))).length = 15 := by
    by_cases hz : off.natAbs % 60 = 0
    · left
      rw [if_pos hz]
      simp [pad2]
    · right
      left
      rw [if_neg hz]
      simp [pad2]
  have harith : off.natAbs / 3600 * 3600 + off.natAbs / 60 % 60 * 60 + off.natAbs % 60 =
      off.natAbs := by omega
  rw [offsetChars]
  show parseTzTail (if off < 0 then '-' else '+') _ = some off
  rw [parseTzTail, if_pos hlen, hrest]
  by_cases hneg : off < 0
  · rw [if_pos hneg]
    simp only [tzFromParts, if_true]
    rw [if_pos (show off.natAbs / 3600 * 3600 + off.natAbs / 60 % 60 * 60 +
        off.natAbs % 60 < 86400 from by omega)]
    have hcast : (-1 : Int) * ((off.natAbs / 3600 * 3600 + off.natAbs / 60 % 60 * 60 +
        off.natAbs % 60 : Nat) : Int) = off := by omega
    rw [hcast]
  · rw [if_neg hneg]
    simp only [tzFromParts, if_true]
    rw [if_pos (show off.natAbs / 3600 * 3600 + off.natAbs / 60 % 60 * 60 +
        off.natAbs % 60 < 86400 from by omega)]
    rw [if_neg (by decide : ¬ ('+' = '-'))]
    have hcast : (1 : Int) * ((off.natAbs / 3600 * 3600 + off.natAbs / 60 % 60 * 60 +
        off.natAbs % 60 : Nat) : Int) = off := by omega
    rw [hcast]

theorem offsetChars_exists_cons (off : Int) :
    ∃ sgn obody, offsetChars off = sgn :: obody ∧ (sgn = '+' ∨ sgn = '-') := by
  by_cases hneg : off < 0
  · exact ⟨'-', _, by rw [offsetChars, if_pos hneg], Or.inr rfl⟩
  · exact ⟨'+', _, by rw [offsetChars, if_neg hneg], Or.inl rfl⟩

theorem datetimeFromIsoChars_isoChars {t : PyDatetime} (h : t.valid = true) :
    datetimeFromIsoChars t.isoChars = some t := by
  obtain ⟨y, mo, dd, hh, mi, ss, us, tz⟩ := t
  have hv := h
  simp only [PyDatetime.valid, Bool.and_eq_true, decide_eq_true_eq] at hv
  obtain ⟨⟨⟨⟨⟨hD, hh23⟩, hmi59⟩, hss59⟩, hus6⟩, htz⟩ := hv
  obtain ⟨hy1, hy2, hmo1, hmo2, hd1, hd2⟩ := PyDate.valid_bounds hD
  have hy1b : 1 ≤ y := hy1
  have hy2b : y ≤ 9999 := hy2
  have hmo2b : mo ≤ 12 := hmo2
  have hd2b : dd ≤ daysInMonth y mo := hd2
  have hy : y < 10000 := by omega
  have hmo100 : mo < 100 := by omega
  have hd100 : dd < 100 := by
    have h31 := daysInMonth_le_31 y mo
    omega
  have hh100 : hh < 100 := by omega
  have hmi100 : mi < 100 := by omega
  have hss100 : ss < 100 := by omega
  have hus1m : us < 1000000 := by omega
  have hsf0 : ∀ c ∈ pad2 hh ++ ':' :: (pad2 mi ++ ':' :: pad2 ss), c ≠ '+' ∧ c ≠ '-' := by
    intro c hc
    rcases List.mem_append.1 hc with hc | hc
    · exact pad2_no_sign hh100 c hc
    rcases List.mem_cons.1 hc with rfl | hc
    · exact ⟨by decide, by decide⟩
    rcases List.mem_append.1 hc with hc | hc
    · exact pad2_no_sign hmi100 c hc
    rcases List.mem_cons.1 hc with rfl | hc
    · exact ⟨by decide, by decide⟩
    exact pad2_no_sign hss100 c hc
  have hsf1 : ∀ c ∈ pad2 hh ++ ':' :: (pad2 mi ++ ':' :: (pad2 ss ++ '.' :: pad6 us)),
      c ≠ '+' ∧ c ≠ '-' := by
    intro c hc
    rcases List.mem_append.1 hc with hc | hc
    · exact pad2_no_sign hh100 c hc
    rcases List.mem_cons.1 hc with rfl | hc
    · exact ⟨by decide, by decide⟩
    rcases List.mem_append.1 hc with hc | hc
    · exact pad2_no_sign hmi100 c hc
    rcases List.mem_cons.1 hc with rfl | hc
    · exact ⟨by decide, by decide⟩
    rcases List.mem_append.1 hc with hc | hc
    · exact pad2_no_sign hss100 c hc
    rcases List.mem_cons.1 hc with rfl | hc
    · exact ⟨by decide, by decide⟩
    exact pad6_no_sign hus1m c hc
  cases tz with
  | none =>
      by_cases hus0 : us = 0
      · subst hus0
        simp only [datetimeFromIsoChars, PyDatetime.isoChars, PyDate.isoChars, if_pos rfl,
          if_true, if_false,
          List.append_assoc, List.cons_append, List.append_nil, takeDigits_pad4 hy,
          obind_some, expectChar_cons_self, takeDigits_pad2 hmo100, takeDigits_pad2 hd100]
        simp only [splitAtSign_all hsf0, parseHMSF_hms hh100 hmi100 hss100, obind_some]
        rw [mkDatetime, if_pos h]
      · simp only [datetimeFromIsoChars, PyDatetime.isoChars, PyDate.isoChars, if_neg hus0,
          List.append_assoc, List.cons_append, List.append_nil, takeDigits_pad4 hy,
          obind_some, expectChar_cons_self, takeDigits_pad2 hmo100, takeDigits_pad2 hd100]
        simp only [splitAtSign_all hsf1, parseHMSF_hmsf hh100 hmi100 hss100 hus1m, obind_some]
        rw [mkDatetime, if_pos h]
  | some off =>
      have hob : off.natAbs < 86400 := of_decide_eq_true htz
      obtain ⟨sgn, obody, hoc, hsgn⟩ := offsetChars_exists_cons off
      have htzeq : parseTzChars (sgn :: obody) = some off := by
        rw [← hoc]
        exact parseTzChars_offsetChars hob
      by_cases hus0 : us = 0
      · subst hus0
        have hsp : splitAtSign (pad2 hh ++ ':' :: (pad2 mi ++ ':' :: (pad2 ss ++ sgn :: obody))) =
            (pad2 hh ++ ':' :: (pad2 mi ++ ':' :: pad2 ss), sgn :: obody) := by
          have hshape : pad2 hh ++ ':' :: (pad2 mi ++ ':' :: (pad2 ss ++ sgn :: obody)) =
              (pad2 hh ++ ':' :: (pad2 mi ++ ':' :: pad2 ss)) ++ sgn :: obody := by
            simp [List.append_assoc]
          rw [hshape, splitAtSign_append hsf0 hsgn]
        simp only [datetimeFromIsoChars, PyDatetime.isoChars, PyDate.isoChars, if_pos rfl,
          if_true, if_false,
          hoc, List.append_assoc, List.cons_append, List.append_nil, takeDigits_pad4 hy,
          obind_some, expectChar_cons_self, takeDigits_pad2 hmo100, takeDigits_pad2 hd100]
        simp only [hsp, parseHMSF_hms hh100 hmi100 hss100, obind_some, htzeq,
          Option.map_some']
        rw [mkDatetime, if_pos h]
      · have hsp : splitAtSign (pad2 hh ++ ':' ::
              (pad2 mi ++ ':' :: (pad2 ss ++ '.' :: (pad6 us ++ sgn :: obody)))) =
            (pad2 hh ++ ':' :: (pad2 mi ++ ':' :: (pad2 ss ++ '.' :: pad6 us)), sgn :: obody) := by
          have hshape : pad2 hh ++ ':' :: (pad2 mi ++ ':' :: (pad2 ss ++ '.' :: (pad6 us ++ sgn :: obody))) =
              (pad2 hh ++ ':' :: (pad2 mi ++ ':' :: (pad2 ss ++ '.' :: pad6 us))) ++ sgn :: obody := by
            simp [List.append_assoc]
          rw [hshape, splitAtSign_append hsf1 hsgn]
        simp only [datetimeFromIsoChars, PyDatetime.isoChars, PyDate.isoChars, if_neg hus0,
          if_true, if_false,
          hoc, List.append_assoc, List.cons_append, List.append_nil, takeDigits_pad4 hy,
          obind_some, expectChar_cons_self, takeDigits_pad2 hmo100, takeDigits_pad2 hd100]
        simp only [hsp, parseHMSF_hmsf hh100 hmi100 hss100 hus1m, obind_some, htzeq,
          Option.map_some']
        rw [mkDatetime, if_pos h]

/-! ## Domain records `Stock` and `Trade`

`assignment.py` stores constructor arguments verbatim.  The embedding types
the fields as the module uses them (`symbol`/`order` strings, `volume` an
`int`, prices `Decimal`, `date`/`timestamp` date and datetime); these are the
shapes produced by every flow in the module. -/

structure Stock where
  symbol : String
  date : PyDate
  open_ : PyDecimal
  high : PyDecimal
  low : PyDecimal
  close : PyDecimal
  volume : Int
deriving DecidableEq, Repr

structure Trade where
  symbol : String
  timestamp : PyDatetime
  order : String
  price : PyDecimal
  volume : Int
  commission : PyDecimal
deriving DecidableEq, Repr

/-! ## JSON documents and Python values

`JValue` is the JSON value tree that `json.dumps` prints and `json.loads`
parses; the JSON text layer itself is the black-box external collaborator of
the spec.  (JSON floats never appear in this module's flows and are omitted.)
`PyValue` is the Python value universe the module's functions operate on;
`pyother` stands for any other Python object, carrying its type name. -/

inductive JValue where
  | jnull
  | jbool (b : Bool)
  | jint (n : Int)
  | jstr (s : String)
  | jarr (xs : List JValue)
  | jobj (fields : List (String × JValue))

inductive PyValue where
  | pynone
  | pybool (b : Bool)
  | pyint (n : Int)
  | pystr (s : String)
  | pylist (xs : List PyValue)
  | pydict (fields : List (String × PyValue))
  | pydate (d : PyDate)
  | pydatetime (t : PyDatetime)
  | pydecimal (d : PyDecimal)
  | pystock (s : Stock)
  | pytrade (t : Trade)
  | pyother (tyname : String)

/-- Python `type(obj).__name__`. -/
def PyValue.typeName : PyValue → String
  | .pynone => "NoneType"
  | .pybool _ => "bool"
  | .pyint _ => "int"
  | .pystr _ => "str"
  | .pylist _ => "list"
  | .pydict _ => "dict"
  | .pydate _ => "date"
  | .pydatetime _ => "datetime"
  | .pydecimal _ => "Decimal"
  | .pystock _ => "Stock"
  | .pytrade _ => "Trade"
  | .pyother n => n

/-! ## Tagged-dict converter: `Stock.to_dict` / `Trade.to_dict` -/

/-- Method `Stock.to_dict`: tag marker, then each field; the date as its ISO string
(the `isinstance` guard always holds for a date-typed field), decimals via
`str`, the volume unchanged. -/
def Stock.to_dict (s : Stock) : List (String × PyValue) :=
  [("__type__", .pystr "Stock"),
   ("symbol", .pystr s.symbol),
   ("date", .pystr s.date.isoformat),
   ("open", .pystr s.open_.str),
   ("high", .pystr s.high.str),
   ("low", .pystr s.low.str),
   ("close", .pystr s.close.str),
   ("volume", .pyint s.volume)]

/-- Method `Trade.to_dict`. -/
def Trade.to_dict (t : Trade) : List (String × PyValue) :=
  [("__type__", .pystr "Trade"),
   ("symbol", .pystr t.symbol),
   ("timestamp", .pystr t.timestamp.isoformat),
   ("order", .pystr t.order),
   ("price", .pystr t.price.str),
   ("volume", .pyint t.volume),
   ("commission", .pystr t.commission.str)]

/-! ## Generic codec: `json.dumps(..., cls=CustomEncoder)` and
`json.loads(..., object_hook=custom_decoder)`, at the JSON-value level -/

/-- Method `CustomEncoder.default`: Stock and Trade via `to_dict`, datetime/date via
`isoformat`, `Decimal` via `str`; anything else falls through to
`json.JSONEncoder.default`, which raises `TypeError`. -/
def CustomEncoder.default : PyValue → Except String PyValue
  | .pystock s => .ok (.pydict s.to_dict)
  | .pytrade t => .ok (.pydict t.to_dict)
  | .pydatetime t => .ok (.pystr t.isoformat)
  | .pydate d => .ok (.pystr d.isoformat)
  | .pydecimal d => .ok (.pystr d.str)
  | v => .error ("Object of type " ++ v.typeName ++ " is not JSON serializable")

/-- Serialization of a JSON-native scalar (the only values `to_dict` and
`default` can return inside a replacement dict). -/
def dumpAtom : PyValue → Except String JValue
  | .pynone => .ok .jnull
  | .pybool b => .ok (.jbool b)
  | .pyint n => .ok (.jint n)
  | .pystr s => .ok (.jstr s)
  | v => .error ("Object of type " ++ v.typeName ++ " is not JSON serializable")

def dumpAtomFields : List (String × PyValue) → Except String (List (String × JValue))
  | [] => .ok []
  | (k, v) :: fs => do
      let j ← dumpAtom v
      let rest ← dumpAtomFields fs
      .ok ((k, j) :: rest)

mutual

/-- Function `json.dumps` with `CustomEncoder`, producing the JSON value tree:
JSON-native values are serialized directly; any other object is replaced by
`CustomEncoder.default` (a flat dict of scalars, or an ISO/decimal string)
and the replacement is serialized. -/
def jsonDumps : PyValue → Except String JValue
  | .pynone => .ok .jnull
  | .pybool b => .ok (.jbool b)
  | .pyint n => .ok (.jint n)
  | .pystr s => .ok (.jstr s)
  | .pylist xs => do
      let ys ← jsonDumpsList xs
      .ok (.jarr ys)
  | .pydict fs => do
      let gs ← jsonDumpsFields fs
      .ok (.jobj gs)
  | v => do
      match ← CustomEncoder.default v with
      | .pydict fs => do
          let gs ← dumpAtomFields fs
          .ok (.jobj gs)
      | w => do
          let j ← dumpAtom w
          .ok j

def jsonDumpsList : List PyValue → Except String (List JValue)
  | [] => .ok []
  | x :: xs => do
      let y ← jsonDumps x
      let ys ← jsonDumpsList xs
      .ok (y :: ys)

def jsonDumpsFields : List (String × PyValue) → Except String (List (String × JValue))
  | [] => .ok []
  | (k, v) :: fs => do
      let j ← jsonDumps v
      let rest ← jsonDumpsFields fs
      .ok ((k, j) :: rest)

end

/-- Subscript `dct[k]`: raises `KeyError` when the key is absent. -/
def pyItem (dct : List (String × PyValue)) (k : String) : Except String PyValue :=
  match dct.lookup k with
  | some v => .ok v
  | none => .error ("KeyError: " ++ k)

/-- Model narrowing: the module only ever stores strings in `symbol`/`order`
(`custom_decoder` passes the looked-up value through unchanged). -/
def asPyStr : PyValue → Except String String
  | .pystr s => .ok s
  | v => .error ("model: expected str, got " ++ v.typeName)

/-- Model narrowing: the module only ever stores ints in `volume`
(`custom_decoder` passes the looked-up value through unchanged). -/
def asPyInt : PyValue → Except String Int
  | .pyint n => .ok n
  | v => .error ("model: expected int, got " ++ v.typeName)

/-- The `Decimal(x)` constructor applied to a decoded JSON value: parses
strings (raising `InvalidOperation` on non-numeric input), converts ints
and bools exactly, passes decimals through, and raises `TypeError`
otherwise. -/
def pyToDecimal : PyValue → Except String PyDecimal
  | .pystr s =>
      match decimalFromString s with
      | some d => .ok d
      | none => .error ("InvalidOperation: " ++ s)
  | .pyint n => .ok ⟨decide (n < 0), n.natAbs, 0⟩
  | .pybool b => .ok ⟨false, if b then 1 else 0, 0⟩
  | .pydecimal d => .ok d
  | v => .error ("conversion from " ++ v.typeName ++ " to Decimal is not supported")

/-- Python `date.fromisoformat(x)`: `TypeError` unless `x` is a string, then the
strict ISO parse (raising `ValueError` on malformed input). -/
def pyDateFromIso : PyValue → Except String PyDate
  | .pystr s =>
      match dateFromIsoformat s with
      | some d => .ok d
      | none => .error ("Invalid isoformat string: " ++ s)
  | _ => .error "fromisoformat: argument must be str"

/-- Python `datetime.fromisoformat(x)`. -/
def pyDatetimeFromIso : PyValue → Except String PyDatetime
  | .pystr s =>
      match datetimeFromIsoformat s with
      | some t => .ok t
      | none => .error ("Invalid isoformat string: " ++ s)
  | _ => .error "fromisoformat: argument must be str"

/-- The `"Stock"` branch of `custom_decoder`: parse the date first, then
evaluate the keyword arguments in order. -/
def decodeStock (dct : List (String × PyValue)) : Except String PyValue := do
  let dt ← pyDateFromIso (← pyItem dct "date")
  let symbol ← asPyStr (← pyItem dct "symbol")
  let open_ ← pyToDecimal (← pyItem dct "open")
  let high ← pyToDecimal (← pyItem dct "high")
  let low ← pyToDecimal (← pyItem dct "low")
  let close ← pyToDecimal (← pyItem dct "close")
  let volume ← asPyInt (← pyItem dct "volume")
  .ok (.pystock ⟨symbol, dt, open_, high, low, close, volume⟩)

/-- The `"Trade"` branch of `custom_decoder`. -/
def decodeTrade (dct : List (String × PyValue)) : Except String PyValue := do
  let ts ← pyDatetimeFromIso (← pyItem dct "timestamp")
  let symbol ← asPyStr (← pyItem dct "symbol")
  let order ← asPyStr (← pyItem dct "order")
  let price ← pyToDecimal (← pyItem dct "price")
  let volume ← asPyInt (← pyItem dct "volume")
  let commission ← pyToDecimal (← pyItem dct "commission")
  .ok (.pytrade ⟨symbol, ts, order, price, volume, commission⟩)

/-- Function `custom_decoder`: if the reserved `"__type__"` tag is present and equals
`"Stock"` or `"Trade"`, reconstruct the record; in every other case
(tag absent, a non-string tag, or an unrecognized tag string) the mapping is
returned unchanged.  A non-string tag compares unequal to both tag strings in
Python, falling through to the final `return dct`. -/
def custom_decoder (dct : List (String × PyValue)) : Except String PyValue :=
  match dct.lookup "__type__" with
  | some (.pystr tag) =>
      if tag = "Stock" then decodeStock dct
      else if tag = "Trade" then decodeTrade dct
      else .ok (.pydict dct)
  | some _ => .ok (.pydict dct)
  | none => .ok (.pydict dct)

mutual

/-- Function `json.loads` with `object_hook=custom_decoder`: every JSON object becomes
a dict and is immediately passed to the hook, bottom-up. -/
def jsonLoads : JValue → Except String PyValue
  | .jnull => .ok .pynone
  | .jbool b => .ok (.pybool b)
  | .jint n => .ok (.pyint n)
  | .jstr s => .ok (.pystr s)
  | .jarr xs => do
      let ys ← jsonLoadsList xs
      .ok (.pylist ys)
  | .jobj fs => do
      let gs ← jsonLoadsFields fs
      custom_decoder gs

def jsonLoadsList : List JValue → Except String (List PyValue)
  | [] => .ok []
  | x :: xs => do
      let y ← jsonLoads x
      let ys ← jsonLoadsList xs
      .ok (y :: ys)

def jsonLoadsFields : List (String × JValue) → Except String (List (String × PyValue))
  | [] => .ok []
  | (k, v) :: fs => do
      let y ← jsonLoads v
      let rest ← jsonLoadsFields fs
      .ok ((k, y) :: rest)

end

/-! ## Schema codec

Modelled from the spec: the marshmallow validation engine is an external
black box (spec section 1 and section 6); its field-level behaviour is
modelled from spec section 4.3 (all fields required, per-field type
coercion, collection of every per-field failure in one pass, rejection of
unknown fields, the post-load construction step) together with the schema
declarations in `assignment.py` (`StockSchema`, `TradeSchema`; decimals with
`as_string=True`). -/

/-- Field declarations available in the two schemas. -/
inductive MMField where
  | mstr
  | mdate
  | mdatetime
  | mdecimal
  | mint
deriving DecidableEq, Repr

/-- Schema `StockSchema`: field names, semantic types; every field `required=True`. -/
def StockSchema : List (String × MMField) :=
  [("symbol", .mstr), ("date", .mdate), ("open", .mdecimal), ("high", .mdecimal),
   ("low", .mdecimal), ("close", .mdecimal), ("volume", .mint)]

/-- Schema `TradeSchema`. -/
def TradeSchema : List (String × MMField) :=
  [("symbol", .mstr), ("timestamp", .mdatetime), ("order", .mstr), ("price", .mdecimal),
   ("volume", .mint), ("commission", .mdecimal)]

/-- Field `fields.Str` deserialization: strings only. -/
def asStr : JValue → Except String String
  | .jstr s => .ok s
  | _ => .error "Not a valid string."

/-- Field `fields.Date` deserialization: an ISO-8601 date string. -/
def asDate : JValue → Except String PyDate
  | .jstr s =>
      match dateFromIsoformat s with
      | some d => .ok d
      | none => .error "Not a valid date."
  | _ => .error "Not a valid date."

/-- Field `fields.DateTime` deserialization: an ISO-8601 datetime string. -/
def asDatetime : JValue → Except String PyDatetime
  | .jstr s =>
      match datetimeFromIsoformat s with
      | some t => .ok t
      | none => .error "Not a valid datetime."
  | _ => .error "Not a valid datetime."

/-- Field `fields.Decimal` deserialization: numbers or numeric strings, exactly;
booleans are rejected. -/
def asDecimal : JValue → Except String PyDecimal
  | .jbool _ => .error "Not a valid number."
  | .jint n => .ok ⟨decide (n < 0), n.natAbs, 0⟩
  | .jstr s =>
      match decimalFromString s with
      | some d => .ok d
      | none => .error "Not a valid number."
  | _ => .error "Not a valid number."

/-- Python `int(s)` on a string: optional sign, then digits, nothing else. -/
def intFromChars (cs : List Char) : Option Int :=
  if ((parseSign cs).2.takeWhile Char.isDigit).isEmpty
      || !((parseSign cs).2.dropWhile Char.isDigit).isEmpty then none
  else
    some (if (parseSign cs).1 then -(digitsToNat ((parseSign cs).2.takeWhile Char.isDigit) : Int)
          else (digitsToNat ((parseSign cs).2.takeWhile Char.isDigit) : Int))

def intFromString (s : String) : Option Int := intFromChars s.toList

/-- Field `fields.Integer` deserialization: ints and integer strings; booleans are
rejected. -/
def asInt : JValue → Except String Int
  | .jbool _ => .error "Not a valid integer."
  | .jint n => .ok n
  | .jstr s =>
      match intFromString s with
      | some n => .ok n
      | none => .error "Not a valid integer."
  | _ => .error "Not a valid integer."

/-- Per-field coercion used during validation. -/
def coerceField : MMField → JValue → Except String PyValue
  | .mstr, v => (asStr v).map .pystr
  | .mdate, v => (asDate v).map .pydate
  | .mdatetime, v => (asDatetime v).map .pydatetime
  | .mdecimal, v => (asDecimal v).map .pydecimal
  | .mint, v => (asInt v).map .pyint

/-- One-pass error collection of `Schema.load`: a missing required field or a
failing coercion contributes a named error; unknown keys are rejected
(marshmallow's default `unknown=RAISE`). -/
def fieldErrors (schema : List (String × MMField)) (fs : List (String × JValue)) :
    List (String × String) :=
  (schema.filterMap fun nf =>
    match fs.lookup nf.1 with
    | none => some (nf.1, "Missing data for required field.")
    | some v =>
        match coerceField nf.2 v with
        | .error e => some (nf.1, e)
        | .ok _ => none)
  ++ fs.filterMap fun kv =>
    if (schema.lookup kv.1).isSome then none else some (kv.1, "Unknown field.")

/-- Field access during the construction step. -/
def getField (fs : List (String × JValue)) (k : String) : Except String JValue :=
  match fs.lookup k with
  | some v => .ok v
  | none => .error "Missing data for required field."

/-- The post-load construction of a `Stock` (`StockSchema.make_stock`). -/
def loadStockData (fs : List (String × JValue)) : Except String Stock := do
  let symbol ← asStr (← getField fs "symbol")
  let date ← asDate (← getField fs "date")
  let open_ ← asDecimal (← getField fs "open")
  let high ← asDecimal (← getField fs "high")
  let low ← asDecimal (← getField fs "low")
  let close ← asDecimal (← getField fs "close")
  let volume ← asInt (← getField fs "volume")
  .ok ⟨symbol, date, open_, high, low, close, volume⟩

/-- The post-load construction of a `Trade` (`TradeSchema.make_trade`). -/
def loadTradeData (fs : List (String × JValue)) : Except String Trade := do
  let symbol ← asStr (← getField fs "symbol")
  let timestamp ← asDatetime (← getField fs "timestamp")
  let order ← asStr (← getField fs "order")
  let price ← asDecimal (← getField fs "price")
  let volume ← asInt (← getField fs "volume")
  let commission ← asDecimal (← getField fs "commission")
  .ok ⟨symbol, timestamp, order, price, volume, commission⟩

/-- Method `StockSchema().loads`: validates (collecting all per-field errors), then
runs the post-load construction; non-object input is rejected wholesale.
The construction step cannot fail once validation passed; its error is
propagated defensively under the `"_schema"` key. -/
def stockSchemaLoads (j : JValue) : Except (List (String × String)) Stock :=
  match j with
  | .jobj fs =>
      if (fieldErrors StockSchema fs).isEmpty then
        match loadStockData fs with
        | .ok s => .ok s
        | .error e => .error [("_schema", e)]
      else .error (fieldErrors StockSchema fs)
  | _ => .error [("_schema", "Invalid input type.")]

/-- Method `TradeSchema().loads`. -/
def tradeSchemaLoads (j : JValue) : Except (List (String × String)) Trade :=
  match j with
  | .jobj fs =>
      if (fieldErrors TradeSchema fs).isEmpty then
        match loadTradeData fs with
        | .ok t => .ok t
        | .error e => .error [("_schema", e)]
      else .error (fieldErrors TradeSchema fs)
  | _ => .error [("_schema", "Invalid input type.")]

/-- Method `StockSchema().dumps(stock)`: declaration-ordered fields, dates in ISO
form, decimals as exact strings (`as_string=True`), the volume as a JSON
number. -/
def stockSchemaDumps (s : Stock) : JValue :=
  .jobj [("symbol", .jstr s.symbol),
         ("date", .jstr s.date.isoformat),
         ("open", .jstr s.open_.str),
         ("high", .jstr s.high.str),
         ("low", .jstr s.low.str),
         ("close", .jstr s.close.str),
         ("volume", .jint s.volume)]

/-- Method `TradeSchema().dumps(trade)`. -/
def tradeSchemaDumps (t : Trade) : JValue :=
  .jobj [("symbol", .jstr t.symbol),
         ("timestamp", .jstr t.timestamp.isoformat),
         ("order", .jstr t.order),
         ("price", .jstr t.price.str),
         ("volume", .jint t.volume),
         ("commission", .jstr t.commission.str)]

/-- Function `serialize_with_marshmallow`: dispatch on the object's type, `TypeError`
for anything else. -/
def serialize_with_marshmallow : PyValue → Except String JValue
  | .pystock s => .ok (stockSchemaDumps s)
  | .pytrade t => .ok (tradeSchemaDumps t)
  | v => .error ("Object of type " ++ v.typeName ++ " is not supported")

/-- The schema instance handed to `deserialize_with_marshmallow`. -/
inductive SchemaKind where
  | stockSchema
  | tradeSchema

/-- Function `deserialize_with_marshmallow(json_str, schema) = schema.loads(json_str)`. -/
def deserialize_with_marshmallow (j : JValue) : SchemaKind → Except (List (String × String)) PyValue
  | .stockSchema => (stockSchemaLoads j).map .pystock
  | .tradeSchema => (tradeSchemaLoads j).map .pytrade

/-! ## Round-trip lemmas for the two codec paths -/

theorem decimalFromString_str (d : PyDecimal) : decimalFromString d.str = some d :=
  decimalFromChars_strChars d

theorem dateFromIsoformat_isoformat {d : PyDate} (h : d.valid = true) :
    dateFromIsoformat d.isoformat = some d :=
  dateFromIsoChars_isoChars h

theorem datetimeFromIsoformat_isoformat {t : PyDatetime} (h : t.valid = true) :
    datetimeFromIsoformat t.isoformat = some t :=
  datetimeFromIsoChars_isoChars h

theorem jsonDumps_stock (s : Stock) :
    jsonDumps (.pystock s) = .ok (.jobj
      [("__type__", .jstr "Stock"),
       ("symbol", .jstr s.symbol),
       ("date", .jstr s.date.isoformat),
       ("open", .jstr s.open_.str),
       ("high", .jstr s.high.str),
       ("low", .jstr s.low.str),
       ("close", .jstr s.close.str),
       ("volume", .jint s.volume)]) := by
  simp only [jsonDumps, CustomEncoder.default, Stock.to_dict, dumpAtomFields, dumpAtom, ebind_ok]

theorem jsonDumps_trade (t : Trade) :
    jsonDumps (.pytrade t) = .ok (.jobj
      [("__type__", .jstr "Trade"),
       ("symbol", .jstr t.symbol),
       ("timestamp", .jstr t.timestamp.isoformat),
       ("order", .jstr t.order),
       ("price", .jstr t.price.str),
       ("volume", .jint t.volume),
       ("commission", .jstr t.commission.str)]) := by
  simp only [jsonDumps, CustomEncoder.default, Trade.to_dict, dumpAtomFields, dumpAtom, ebind_ok]

theorem decodeStock_fields (s : Stock) (h : s.date.valid = true) :
    decodeStock [("__type__", .pystr "Stock"),
                 ("symbol", .pystr s.symbol),
                 ("date", .pystr s.date.isoformat),
                 ("open", .pystr s.open_.str),
                 ("high", .pystr s.high.str),
                 ("low", .pystr s.low.str),
                 ("close", .pystr s.close.str),
                 ("volume", .pyint s.volume)] = .ok (.pystock s) := by
  simp only [decodeStock,
    show pyItem [("__type__", PyValue.pystr "Stock"), ("symbol", .pystr s.symbol),
      ("date", .pystr s.date.isoformat), ("open", .pystr s.open_.str),
      ("high", .pystr s.high.str), ("low", .pystr s.low.str), ("close", .pystr s.close.str),
      ("volume", .pyint s.volume)] "date" = .ok (.pystr s.date.isoformat) from rfl,
    show pyItem [("__type__", PyValue.pystr "Stock"), ("symbol", .pystr s.symbol),
      ("date", .pystr s.date.isoformat), ("open", .pystr s.open_.str),
      ("high", .pystr s.high.str), ("low", .pystr s.low.str), ("close", .pystr s.close.str),
      ("volume", .pyint s.volume)] "symbol" = .ok (.pystr s.symbol) from rfl,
    show pyItem [("__type__", PyValue.pystr "Stock"), ("symbol", .pystr s.symbol),
      ("date", .pystr s.date.isoformat), ("open", .pystr s.open_.str),
      ("high", .pystr s.high.str), ("low", .pystr s.low.str), ("close", .pystr s.close.str),
      ("volume", .pyint s.volume)] "open" = .ok (.pystr s.open_.str) from rfl,
    show pyItem [("__type__", PyValue.pystr "Stock"), ("symbol", .pystr s.symbol),
      ("date", .pystr s.date.isoformat), ("open", .pystr s.open_.str),
      ("high", .pystr s.high.str), ("low", .pystr s.low.str), ("close", .pystr s.close.str),
      ("volume", .pyint s.volume)] "high" = .ok (.pystr s.high.str) from rfl,
    show pyItem [("__type__", PyValue.pystr "Stock"), ("symbol", .pystr s.symbol),
      ("date", .pystr s.date.isoformat), ("open", .pystr s.open_.str),
      ("high", .pystr s.high.str), ("low", .pystr s.low.str), ("close", .pystr s.close.str),
      ("volume", .pyint s.volume)] "low" = .ok (.pystr s.low.str) from rfl,
    show pyItem [("__type__", PyValue.pystr "Stock"), ("symbol", .pystr s.symbol),
      ("date", .pystr s.date.isoformat), ("open", .pystr s.open_.str),
      ("high", .pystr s.high.str), ("low", .pystr s.low.str), ("close", .pystr s.close.str),
      ("volume", .pyint s.volume)] "close" = .ok (.pystr s.close.str) from rfl,
    show pyItem [("__type__", PyValue.pystr "Stock"), ("symbol", .pystr s.symbol),
      ("date", .pystr s.date.isoformat), ("open", .pystr s.open_.str),
      ("high", .pystr s.high.str), ("low", .pystr s.low.str), ("close", .pystr s.close.str),
      ("volume", .pyint s.volume)] "volume" = .ok (.pyint s.volume) from rfl,
    ebind_ok, pyDateFromIso, pyToDecimal, asPyStr, asPyInt,
    dateFromIsoformat_isoformat h, decimalFromString_str]

theorem decodeTrade_fields (t : Trade) (h : t.timestamp.valid = true) :
    decodeTrade [("__type__", .pystr "Trade"),
                 ("symbol", .pystr t.symbol),
                 ("timestamp", .pystr t.timestamp.isoformat),
                 ("order", .pystr t.order),
                 ("price", .pystr t.price.str),
                 ("volume", .pyint t.volume),
                 ("commission", .pystr t.commission.str)] = .ok (.pytrade t) := by
  simp only [decodeTrade,
    show pyItem [("__type__", PyValue.pystr "Trade"), ("symbol", .pystr t.symbol),
      ("timestamp", .pystr t.timestamp.isoformat), ("order", .pystr t.order),
      ("price", .pystr t.price.str), ("volume", .pyint t.volume),
      ("commission", .pystr t.commission.str)] "timestamp" =
        .ok (.pystr t.timestamp.isoformat) from rfl,
    show pyItem [("__type__", PyValue.pystr "Trade"), ("symbol", .pystr t.symbol),
      ("timestamp", .pystr t.timestamp.isoformat), ("order", .pystr t.order),
      ("price", .pystr t.price.str), ("volume", .pyint t.volume),
      ("commission", .pystr t.commission.str)] "symbol" = .ok (.pystr t.symbol) from rfl,
    show pyItem [("__type__", PyValue.pystr "Trade"), ("symbol", .pystr t.symbol),
      ("timestamp", .pystr t.timestamp.isoformat), ("order", .pystr t.order),
      ("price", .pystr t.price.str), ("volume", .pyint t.volume),
      ("commission", .pystr t.commission.str)] "order" = .ok (.pystr t.order) from rfl,
    show pyItem [("__type__", PyValue.pystr "Trade"), ("symbol", .pystr t.symbol),
      ("timestamp", .pystr t.timestamp.isoformat), ("order", .pystr t.order),
      ("price", .pystr t.price.str), ("volume", .pyint t.volume),
      ("commission", .pystr t.commission.str)] "price" = .ok (.pystr t.price.str) from rfl,
    show pyItem [("__type__", PyValue.pystr "Trade"), ("symbol", .pystr t.symbol),
      ("timestamp", .pystr t.timestamp.isoformat), ("order", .pystr t.order),
      ("price", .pystr t.price.str), ("volume", .pyint t.volume),
      ("commission", .pystr t.commission.str)] "volume" = .ok (.pyint t.volume) from rfl,
    show pyItem [("__type__", PyValue.pystr "Trade"), ("symbol", .pystr t.symbol),
      ("timestamp", .pystr t.timestamp.isoformat), ("order", .pystr t.order),
      ("price", .pystr t.price.str), ("volume", .pyint t.volume),
      ("commission", .pystr t.commission.str)] "commission" =
        .ok (.pystr t.commission.str) from rfl,
    ebind_ok, pyDatetimeFromIso, pyToDecimal, asPyStr, asPyInt,
    datetimeFromIsoformat_isoformat h, decimalFromString_str]

theorem tagged_roundtrip_stock (s : Stock) (h : s.date.valid = true) :
    (jsonDumps (.pystock s) >>= jsonLoads) = Except.ok (.pystock s) := by
  rw [jsonDumps_stock, ebind_ok]
  simp only [jsonLoads, jsonLoadsFields, ebind_ok]
  rw [show custom_decoder [("__type__", PyValue.pystr "Stock"), ("symbol", .pystr s.symbol),
      ("date", .pystr s.date.isoformat), ("open", .pystr s.open_.str),
      ("high", .pystr s.high.str), ("low", .pystr s.low.str), ("close", .pystr s.close.str),
      ("volume", .pyint s.volume)] =
    decodeStock [("__type__", PyValue.pystr "Stock"), ("symbol", .pystr s.symbol),
      ("date", .pystr s.date.isoformat), ("open", .pystr s.open_.str),
      ("high", .pystr s.high.str), ("low", .pystr s.low.str), ("close", .pystr s.close.str),
      ("volume", .pyint s.volume)] from rfl]
  exact decodeStock_fields s h

theorem tagged_roundtrip_trade (t : Trade) (h : t.timestamp.valid = true) :
    (jsonDumps (.pytrade t) >>= jsonLoads) = Except.ok (.pytrade t) := by
  rw [jsonDumps_trade, ebind_ok]
  simp only [jsonLoads, jsonLoadsFields, ebind_ok]
  rw [show custom_decoder [("__type__", PyValue.pystr "Trade"), ("symbol", .pystr t.symbol),
      ("timestamp", .pystr t.timestamp.isoformat), ("order", .pystr t.order),
      ("price", .pystr t.price.str), ("volume", .pyint t.volume),
      ("commission", .pystr t.commission.str)] =
    decodeTrade [("__type__", PyValue.pystr "Trade"), ("symbol", .pystr t.symbol),
      ("timestamp", .pystr t.timestamp.isoformat), ("order", .pystr t.order),
      ("price", .pystr t.price.str), ("volume", .pyint t.volume),
      ("commission", .pystr t.commission.str)] from rfl]
  exact decodeTrade_fields t h

theorem stockSchema_roundtrip (s : Stock) (h : s.date.valid = true) :
    stockSchemaLoads (stockSchemaDumps s) = .ok s := by
  have herr : fieldErrors StockSchema
      [("symbol", JValue.jstr s.symbol),
       ("date", .jstr s.date.isoformat),
       ("open", .jstr s.open_.str),
       ("high", .jstr s.high.str),
       ("low", .jstr s.low.str),
       ("close", .jstr s.close.str),
       ("volume", .jint s.volume)] = [] := by
    simp only [fieldErrors, StockSchema, List.filterMap, List.lookup, String.reduceBEq,
      beq_self_eq_true, coerceField, asStr, asDate, asDecimal, asInt,
      dateFromIsoformat_isoformat h, decimalFromString_str, Except.map, Option.isSome,
      if_true, if_false, List.append_nil]
  have hload : loadStockData
      [("symbol", JValue.jstr s.symbol),
       ("date", .jstr s.date.isoformat),
       ("open", .jstr s.open_.str),
       ("high", .jstr s.high.str),
       ("low", .jstr s.low.str),
       ("close", .jstr s.close.str),
       ("volume", .jint s.volume)] = .ok s := by
    simp only [loadStockData, getField, List.lookup, String.reduceBEq, beq_self_eq_true,
      ebind_ok, asStr, asDate, asDecimal, asInt, dateFromIsoformat_isoformat h,
      decimalFromString_str]
  rw [stockSchemaDumps, stockSchemaLoads, herr]
  simp only [List.isEmpty_nil, if_true, hload]

theorem tradeSchema_roundtrip (t : Trade) (h : t.timestamp.valid = true) :
    tradeSchemaLoads (tradeSchemaDumps t) = .ok t := by
  have herr : fieldErrors TradeSchema
      [("symbol", JValue.jstr t.symbol),
       ("timestamp", .jstr t.timestamp.isoformat),
       ("order", .jstr t.order),
       ("price", .jstr t.price.str),
       ("volume", .jint t.volume),
       ("commission", .jstr t.commission.str)] = [] := by
    simp only [fieldErrors, TradeSchema, List.filterMap, List.lookup, String.reduceBEq,
      beq_self_eq_true, coerceField, asStr, asDatetime, asDecimal, asInt,
      datetimeFromIsoformat_isoformat h, decimalFromString_str, Except.map, Option.isSome,
      if_true, if_false, List.append_nil]
  have hload : loadTradeData
      [("symbol", JValue.jstr t.symbol),
       ("timestamp", .jstr t.timestamp.isoformat),
       ("order", .jstr t.order),
       ("price", .jstr t.price.str),
       ("volume", .jint t.volume),
       ("commission", .jstr t.commission.str)] = .ok t := by
    simp only [loadTradeData, getField, List.lookup, String.reduceBEq, beq_self_eq_true,
      ebind_ok, asStr, asDatetime, asDecimal, asInt, datetimeFromIsoformat_isoformat h,
      decimalFromString_str]
  rw [tradeSchemaDumps, tradeSchemaLoads, herr]
  simp only [List.isEmpty_nil, if_true, hload]

/-! ## Exhaustive case analysis of the tagged decoder branches -/

theorem decodeStock_cases (dct : List (String × PyValue)) :
    (∃ e, decodeStock dct = .error e) ∨
    ∃ st : Stock,
      decodeStock dct = .ok (.pystock st) ∧
      (∃ v, dct.lookup "date" = some v ∧ pyDateFromIso v = .ok st.date) ∧
      (∃ v, dct.lookup "symbol" = some v ∧ asPyStr v = .ok st.symbol) ∧
      (∃ v, dct.lookup "open" = some v ∧ pyToDecimal v = .ok st.open_) ∧
      (∃ v, dct.lookup "high" = some v ∧ pyToDecimal v = .ok st.high) ∧
      (∃ v, dct.lookup "low" = some v ∧ pyToDecimal v = .ok st.low) ∧
      (∃ v, dct.lookup "close" = some v ∧ pyToDecimal v = .ok st.close) ∧
      (∃ v, dct.lookup "volume" = some v ∧ asPyInt v = .ok st.volume) := by
  cases h1 : dct.lookup "date" with
  | none => exact Or.inl ⟨"KeyError: date", by simp [decodeStock, pyItem, h1]⟩
  | some v1 =>
  cases h1p : pyDateFromIso v1 with
  | error e => exact Or.inl ⟨e, by simp [decodeStock, pyItem, h1, h1p]⟩
  | ok dt =>
  cases h2 : dct.lookup "symbol" with
  | none => exact Or.inl ⟨"KeyError: symbol", by simp [decodeStock, pyItem, h1, h1p, h2]⟩
  | some v2 =>
  cases h2p : asPyStr v2 with
  | error e => exact Or.inl ⟨e, by simp [decodeStock, pyItem, h1, h1p, h2, h2p]⟩
  | ok sy =>
  cases h3 : dct.lookup "open" with
  | none => exact Or.inl ⟨"KeyError: open", by simp [decodeStock, pyItem, h1, h1p, h2, h2p, h3]⟩
  | some v3 =>
  cases h3p : pyToDecimal v3 with
  | error e => exact Or.inl ⟨e, by simp [decodeStock, pyItem, h1, h1p, h2, h2p, h3, h3p]⟩
  | ok o3 =>
  cases h4 : dct.lookup "high" with
  | none =>
      exact Or.inl ⟨"KeyError: high",
        by simp [decodeStock, pyItem, h1, h1p, h2, h2p, h3, h3p, h4]⟩
  | some v4 =>
  cases h4p : pyToDecimal v4 with
  | error e => exact Or.inl ⟨e, by simp [decodeStock, pyItem, h1, h1p, h2, h2p, h3, h3p, h4, h4p]⟩
  | ok o4 =>
  cases h5 : dct.lookup "low" with
  | none =>
      exact Or.inl ⟨"KeyError: low",
        by simp [decodeStock, pyItem, h1, h1p, h2, h2p, h3, h3p, h4, h4p, h5]⟩
  | some v5 =>
  cases h5p : pyToDecimal v5 with
  | error e =>
      exact Or.inl ⟨e, by simp [decodeStock, pyItem, h1, h1p, h2, h2p, h3, h3p, h4, h4p, h5, h5p]⟩
  | ok o5 =>
  cases h6 : dct.lookup "close" with
  | none =>
      exact Or.inl ⟨"KeyError: close",
        by simp [decodeStock, pyItem, h1, h1p, h2, h2p, h3, h3p, h4, h4p, h5, h5p, h6]⟩
  | some v6 =>
  cases h6p : pyToDecimal v6 with
  | error e =>
      exact Or.inl ⟨e,
        by simp [decodeStock, pyItem, h1, h1p, h2, h2p, h3, h3p, h4, h4p, h5, h5p, h6, h6p]⟩
  | ok o6 =>
  cases h7 : dct.lookup "volume" with
  | none =>
      exact Or.inl ⟨"KeyError: volume",
        by simp [decodeStock, pyItem, h1, h1p, h2, h2p, h3, h3p, h4, h4p, h5, h5p, h6, h6p, h7]⟩
  | some v7 =>
  cases h7p : asPyInt v7 with
  | error e =>
      exact Or.inl ⟨e,
        by simp [decodeStock, pyItem, h1, h1p, h2, h2p, h3, h3p, h4, h4p, h5, h5p, h6, h6p,
          h7, h7p]⟩
  | ok n7 =>
      exact Or.inr ⟨⟨sy, dt, o3, o4, o5, o6, n7⟩,
        by simp [decodeStock, pyItem, h1, h1p, h2, h2p, h3, h3p, h4, h4p, h5, h5p, h6, h6p,
          h7, h7p],
        ⟨v1, rfl, h1p⟩, ⟨v2, rfl, h2p⟩, ⟨v3, rfl, h3p⟩, ⟨v4, rfl, h4p⟩, ⟨v5, rfl, h5p⟩,
        ⟨v6, rfl, h6p⟩, ⟨v7, rfl, h7p⟩⟩

theorem decodeTrade_cases (dct : List (String × PyValue)) :
    (∃ e, decodeTrade dct = .error e) ∨
    ∃ tr : Trade,
      decodeTrade dct = .ok (.pytrade tr) ∧
      (∃ v, dct.lookup "timestamp" = some v ∧ pyDatetimeFromIso v = .ok tr.timestamp) ∧
      (∃ v, dct.lookup "symbol" = some v ∧ asPyStr v = .ok tr.symbol) ∧
      (∃ v, dct.lookup "order" = some v ∧ asPyStr v = .ok tr.order) ∧
      (∃ v, dct.lookup "price" = some v ∧ pyToDecimal v = .ok tr.price) ∧
      (∃ v, dct.lookup "volume" = some v ∧ asPyInt v = .ok tr.volume) ∧
      (∃ v, dct.lookup "commission" = some v ∧ pyToDecimal v = .ok tr.commission) := by
  cases h1 : dct.lookup "timestamp" with
  | none => exact Or.inl ⟨"KeyError: timestamp", by simp [decodeTrade, pyItem, h1]⟩
  | some v1 =>
  cases h1p : pyDatetimeFromIso v1 with
  | error e => exact Or.inl ⟨e, by simp [decodeTrade, pyItem, h1, h1p]⟩
  | ok ts =>
  cases h2 : dct.lookup "symbol" with
  | none => exact Or.inl ⟨"KeyError: symbol", by simp [decodeTrade, pyItem, h1, h1p, h2]⟩
  | some v2 =>
  cases h2p : asPyStr v2 with
  | error e => exact Or.inl ⟨e, by simp [decodeTrade, pyItem, h1, h1p, h2, h2p]⟩
  | ok sy =>
  cases h3 : dct.lookup "order" with
  | none => exact Or.inl ⟨"KeyError: order", by simp [decodeTrade, pyItem, h1, h1p, h2, h2p, h3]⟩
  | some v3 =>
  cases h3p : asPyStr v3 with
  | error e => exact Or.inl ⟨e, by simp [decodeTrade, pyItem, h1, h1p, h2, h2p, h3, h3p]⟩
  | ok od =>
  cases h4 : dct.lookup "price" with
  | none =>
      exact Or.inl ⟨"KeyError: price",
        by simp [decodeTrade, pyItem, h1, h1p, h2, h2p, h3, h3p, h4]⟩
  | some v4 =>
  cases h4p : pyToDecimal v4 with
  | error e => exact Or.inl ⟨e, by simp [decodeTrade, pyItem, h1, h1p, h2, h2p, h3, h3p, h4, h4p]⟩
  | ok pr =>
  cases h5 : dct.lookup "volume" with
  | none =>
      exact Or.inl ⟨"KeyError: volume",
        by simp [decodeTrade, pyItem, h1, h1p, h2, h2p, h3, h3p, h4, h4p, h5]⟩
  | some v5 =>
  cases h5p : asPyInt v5 with
  | error e =>
      exact Or.inl ⟨e, by simp [decodeTrade, pyItem, h1, h1p, h2, h2p, h3, h3p, h4, h4p, h5, h5p]⟩
  | ok n5 =>
  cases h6 : dct.lookup "commission" with
  | none =>
      exact Or.inl ⟨"KeyError: commission",
        by simp [decodeTrade, pyItem, h1, h1p, h2, h2p, h3, h3p, h4, h4p, h5, h5p, h6]⟩
  | some v6 =>
  cases h6p : pyToDecimal v6 with
  | error e =>
      exact Or.inl ⟨e,
        by simp [decodeTrade, pyItem, h1, h1p, h2, h2p, h3, h3p, h4, h4p, h5, h5p, h6, h6p]⟩
  | ok cm =>
      exact Or.inr ⟨⟨sy, ts, od, pr, n5, cm⟩,
        by simp [decodeTrade, pyItem, h1, h1p, h2, h2p, h3, h3p, h4, h4p, h5, h5p, h6, h6p],
        ⟨v1, rfl, h1p⟩, ⟨v2, rfl, h2p⟩, ⟨v3, rfl, h3p⟩, ⟨v4, rfl, h4p⟩, ⟨v5, rfl, h5p⟩,
        ⟨v6, rfl, h6p⟩⟩

/-! ## Error-side lemmas for the schema codec -/

theorem fieldErrors_missing {schema : List (String × MMField)} {fs : List (String × JValue)}
    {k : String} {ft : MMField} (hk : (k, ft) ∈ schema) (h : fs.lookup k = none) :
    (k, "Missing data for required field.") ∈ fieldErrors schema fs := by
  unfold fieldErrors
  refine List.mem_append_left _ ?_
  refine List.mem_filterMap.2 ⟨(k, ft), hk, ?_⟩
  simp [h]

theorem isEmpty_false_of_ne_nil {α : Type} {l : List α} (h : l ≠ []) : l.isEmpty = false := by
  cases hc : l with
  | nil => exact absurd hc h
  | cons a t => rfl

theorem stockSchemaLoads_error {fs : List (String × JValue)}
    (h : fieldErrors StockSchema fs ≠ []) :
    stockSchemaLoads (.jobj fs) = .error (fieldErrors StockSchema fs) := by
  simp only [stockSchemaLoads, isEmpty_false_of_ne_nil h, Bool.false_eq_true, if_false]

theorem tradeSchemaLoads_error {fs : List (String × JValue)}
    (h : fieldErrors TradeSchema fs ≠ []) :
    tradeSchemaLoads (.jobj fs) = .error (fieldErrors TradeSchema fs) := by
  simp only [tradeSchemaLoads, isEmpty_false_of_ne_nil h, Bool.false_eq_true, if_false]

theorem lookup_eq_none_of_not_mem {β : Type} {l : List (String × β)} {k : String}
    (h : k ∉ l.map Prod.fst) : l.lookup k = none := by
  induction l with
  | nil => rfl
  | cons p l ih =>
      simp only [List.map_cons, List.mem_cons, not_or] at h
      have hne : (k == p.1) = false := beq_eq_false_iff_ne.mpr h.1
      obtain ⟨a, b⟩ := p
      simp only [List.lookup, hne, ih h.2]

/-! ## Character analysis of `Decimal.__str__` in the positional regime -/

theorem decBody_chars (d : PyDecimal) : ∀ c ∈ decBody d, c = '.' ∨ c.isDigit = true := by
  intro c hc
  unfold decBody at hc
  by_cases hle : decDotplace d ≤ 0
  · rw [if_pos hle] at hc
    rcases List.mem_cons.1 hc with rfl | hc
    · right; decide
    rcases List.mem_cons.1 hc with rfl | hc
    · left; rfl
    rcases List.mem_append.1 hc with hc | hc
    · right
      rw [List.eq_of_mem_replicate hc]
      decide
    · right; exact natRepr_digits _ c hc
  · rw [if_neg hle] at hc
    by_cases hnb : ((natRepr d.coeff).length : Int) ≤ decDotplace d
    · rw [if_pos hnb] at hc
      rcases List.mem_append.1 hc with hc | hc
      · right; exact natRepr_digits _ c hc
      · right
        rw [List.eq_of_mem_replicate hc]
        decide
    · rw [if_neg hnb] at hc
      rcases List.mem_append.1 hc with hc | hc
      · right; exact natRepr_digits _ c (List.take_subset _ _ hc)
      rcases List.mem_cons.1 hc with rfl | hc
      · left; rfl
      · right; exact natRepr_digits _ c (List.drop_subset _ _ hc)

theorem strChars_no_exp {d : PyDecimal} (h1 : d.exp ≤ 0) (h2 : -6 < decLeft d) :
    ∀ c ∈ d.strChars, c ≠ 'E' ∧ c ≠ 'e' := by
  have hexp0 : decExpChars d = [] := by rw [decExpChars, if_pos ⟨h1, h2⟩]
  intro c hc
  rw [PyDecimal.strChars, hexp0, List.append_nil] at hc
  rcases List.mem_append.1 hc with hc | hc
  · cases hds : d.sign with
    | true =>
        rw [hds] at hc
        simp at hc
        subst hc
        exact ⟨by decide, by decide⟩
    | false =>
        rw [hds] at hc
        simp at hc
  · rcases decBody_chars d c hc with rfl | hdig
    · exact ⟨by decide, by decide⟩
    · exact ⟨(ne_of_isDigit hdig).2.2.2.2.1, (ne_of_isDigit hdig).2.2.2.2.2⟩

/-! ## Example records used by the witnesses -/

def exStock : Stock :=
  ⟨"AAPL", ⟨2024, 1, 15⟩, ⟨false, 15025, -2⟩, ⟨false, 15200, -2⟩, ⟨false, 14950, -2⟩,
   ⟨false, 15175, -2⟩, 1000000⟩

def exTrade : Trade :=
  ⟨"AAPL", ⟨2024, 1, 15, 9, 30, 0, 0, some (-18000)⟩, "buy", ⟨false, 15030, -2⟩, 100,
   ⟨false, 100, -2⟩⟩

/-! ## The claims -/

/-- Claim C1: for every valid `Stock` and `Trade`, decoding the result of
encoding reproduces the record field-for-field, both along the tagged-dict /
generic-codec path (`json.dumps` with `CustomEncoder`, then `json.loads` with
`custom_decoder`) and along the schema-codec path
(`serialize_with_marshmallow`, then `deserialize_with_marshmallow` with the
matching schema). -/
theorem claim_C1 (s : Stock) (t : Trade) (hs : s.date.valid = true)
    (ht : t.timestamp.valid = true) :
    (jsonDumps (.pystock s) >>= jsonLoads) = Except.ok (.pystock s) ∧
    (jsonDumps (.pytrade t) >>= jsonLoads) = Except.ok (.pytrade t) ∧
    (∃ j, serialize_with_marshmallow (.pystock s) = .ok j ∧
      deserialize_with_marshmallow j .stockSchema = .ok (.pystock s)) ∧
    (∃ j, serialize_with_marshmallow (.pytrade t) = .ok j ∧
      deserialize_with_marshmallow j .tradeSchema = .ok (.pytrade t)) := by
  refine ⟨tagged_roundtrip_stock s hs, tagged_roundtrip_trade t ht,
    ⟨stockSchemaDumps s, rfl, ?_⟩, ⟨tradeSchemaDumps t, rfl, ?_⟩⟩
  · show (stockSchemaLoads (stockSchemaDumps s)).map PyValue.pystock = _
    rw [stockSchema_roundtrip s hs]
    rfl
  · show (tradeSchemaLoads (tradeSchemaDumps t)).map PyValue.pytrade = _
    rw [tradeSchema_roundtrip t ht]
    rfl

/-- Witness for C1 at a concrete quote and trade. -/
theorem claim_C1_witness :
    exStock.date.valid = true ∧ exTrade.timestamp.valid = true ∧
    ((jsonDumps (.pystock exStock) >>= jsonLoads) = Except.ok (.pystock exStock) ∧
     (jsonDumps (.pytrade exTrade) >>= jsonLoads) = Except.ok (.pytrade exTrade) ∧
     (∃ j, serialize_with_marshmallow (.pystock exStock) = .ok j ∧
       deserialize_with_marshmallow j .stockSchema = .ok (.pystock exStock)) ∧
     (∃ j, serialize_with_marshmallow (.pytrade exTrade) = .ok j ∧
       deserialize_with_marshmallow j .tradeSchema = .ok (.pytrade exTrade))) :=
  ⟨by decide, by decide, claim_C1 exStock exTrade (by decide) (by decide)⟩

/-- Claim C2 (amended): every `Decimal` value on a record is emitted as the
JSON string `str(d)` — never a JSON number — and that string parses back to
the exact same decimal (no precision loss); the string avoids scientific
notation (no exponent marker) whenever the exponent is at most `0` and the
adjusted exponent exceeds `-6`, Python's positional-notation regime, which
covers every fixed-point value such as `Decimal("150.25")`. -/
theorem claim_C2 (d : PyDecimal) (s : Stock) :
    (jsonDumps (.pydecimal d) = .ok (.jstr d.str) ∧
     (Stock.to_dict s).lookup "open" = some (.pystr s.open_.str) ∧
     decimalFromString d.str = some d) ∧
    (d.exp ≤ 0 → -6 < decLeft d → ∀ c ∈ d.str.toList, c ≠ 'E' ∧ c ≠ 'e') := by
  refine ⟨⟨?_, rfl, decimalFromString_str d⟩, ?_⟩
  · simp [jsonDumps, CustomEncoder.default, dumpAtom, ebind_ok]
  · intro h1 h2 c hc
    exact strChars_no_exp h1 h2 c hc

/-- Counterexample to C2 as stated: `Decimal("1E+7")` is a legal price value,
and both the tagged-dict converter and the generic codec emit it as the
string `"1E+7"`, which is scientific notation. -/
theorem claim_C2_counterexample :
    PyDecimal.str ⟨false, 1, 7⟩ = "1E+7" ∧
    jsonDumps (.pydecimal ⟨false, 1, 7⟩) = .ok (.jstr "1E+7") ∧
    (Stock.to_dict ⟨"AAPL", ⟨2024, 1, 15⟩, ⟨false, 1, 7⟩, ⟨false, 1, 7⟩, ⟨false, 1, 7⟩,
      ⟨false, 1, 7⟩, 100⟩).lookup "open" = some (.pystr "1E+7") ∧
    'E' ∈ ("1E+7" : String).toList := by
  have hstr : PyDecimal.str ⟨false, 1, 7⟩ = "1E+7" := by
    show String.mk (PyDecimal.strChars ⟨false, 1, 7⟩) = "1E+7"
    rw [show PyDecimal.strChars ⟨false, 1, 7⟩ = "1E+7".toList from by decide]
    rfl
  refine ⟨hstr, ?_, rfl, by decide⟩
  simp [jsonDumps, CustomEncoder.default, dumpAtom, ebind_ok, hstr]

/-- Witness for C2 at `Decimal("150.25")`: the emitted string parses back
exactly and contains no exponent marker. -/
theorem claim_C2_witness :
    decimalFromString (PyDecimal.str ⟨false, 15025, -2⟩) = some ⟨false, 15025, -2⟩ ∧
    ((PyDecimal.str ⟨false, 15025, -2⟩).toList.all fun c =>
      decide (c ≠ 'E') && decide (c ≠ 'e')) = true := by
  constructor
  · exact (claim_C2 ⟨false, 15025, -2⟩ exStock).1.2.2
  · refine List.all_eq_true.mpr ?_
    intro c hc
    have h := (claim_C2 ⟨false, 15025, -2⟩ exStock).2 (by decide) (by decide) c hc
    simp only [Bool.and_eq_true, decide_eq_true_eq]
    exact h

/-- Claim C3: a mapping without the reserved `"__type__"` key passes through
`custom_decoder` unchanged. -/
theorem claim_C3 (dct : List (String × PyValue)) (h : dct.lookup "__type__" = none) :
    custom_decoder dct = .ok (.pydict dct) := by
  unfold custom_decoder
  rw [h]

/-- Witness for C3 at a concrete untagged mapping. -/
theorem claim_C3_witness :
    List.lookup "__type__" [("symbol", PyValue.pystr "AAPL"), ("volume", .pyint 7)] = none ∧
    custom_decoder [("symbol", PyValue.pystr "AAPL"), ("volume", .pyint 7)] =
      .ok (.pydict [("symbol", PyValue.pystr "AAPL"), ("volume", .pyint 7)]) :=
  ⟨rfl, claim_C3 _ rfl⟩

/-- Claim C4: a mapping whose `"__type__"` value is neither `"Stock"` nor
`"Trade"` (for example `"Bond"`, or any non-string value) passes through
`custom_decoder` unchanged; no error is raised and no record is built. -/
theorem claim_C4 (dct : List (String × PyValue)) (v : PyValue)
    (h : dct.lookup "__type__" = some v) (h1 : v ≠ .pystr "Stock") (h2 : v ≠ .pystr "Trade") :
    custom_decoder dct = .ok (.pydict dct) := by
  unfold custom_decoder
  rw [h]
  cases v with
  | pystr tag =>
      show (if tag = "Stock" then decodeStock dct
        else if tag = "Trade" then decodeTrade dct
        else Except.ok (PyValue.pydict dct)) = Except.ok (.pydict dct)
      rw [if_neg (fun hs => h1 (by rw [hs])), if_neg (fun hs => h2 (by rw [hs]))]
  | pynone => rfl
  | pybool b => rfl
  | pyint n => rfl
  | pylist xs => rfl
  | pydict fs => rfl
  | pydate d => rfl
  | pydatetime t => rfl
  | pydecimal d => rfl
  | pystock s => rfl
  | pytrade t => rfl
  | pyother n => rfl

/-- Witness for C4 at the tag `"Bond"`. -/
theorem claim_C4_witness :
    List.lookup "__type__" [("__type__", PyValue.pystr "Bond"), ("coupon", .pyint 3)] =
      some (.pystr "Bond") ∧
    custom_decoder [("__type__", PyValue.pystr "Bond"), ("coupon", .pyint 3)] =
      .ok (.pydict [("__type__", PyValue.pystr "Bond"), ("coupon", .pyint 3)]) :=
  ⟨rfl, claim_C4 _ _ rfl (by simp) (by simp)⟩

/-- Claim C5: during a tagged decode, a malformed ISO date or datetime string
(in the `"date"` field of a `"Stock"`-tagged mapping or the `"timestamp"`
field of a `"Trade"`-tagged mapping), or a non-numeric string in any
decimal-valued field (`open`/`high`/`low`/`close`/`price`/`commission`),
makes `custom_decoder` raise an error to the caller: the result is an
`error`, never a constructed record and never a partial success. -/
theorem claim_C5 (dct : List (String × PyValue)) (s : String) :
    (dct.lookup "__type__" = some (.pystr "Stock") →
      ((dct.lookup "date" = some (.pystr s) ∧ dateFromIsoformat s = none) ∨
       (dct.lookup "open" = some (.pystr s) ∧ decimalFromString s = none) ∨
       (dct.lookup "high" = some (.pystr s) ∧ decimalFromString s = none) ∨
       (dct.lookup "low" = some (.pystr s) ∧ decimalFromString s = none) ∨
       (dct.lookup "close" = some (.pystr s) ∧ decimalFromString s = none)) →
      ∃ e, custom_decoder dct = .error e) ∧
    (dct.lookup "__type__" = some (.pystr "Trade") →
      ((dct.lookup "timestamp" = some (.pystr s) ∧ datetimeFromIsoformat s = none) ∨
       (dct.lookup "price" = some (.pystr s) ∧ decimalFromString s = none) ∨
       (dct.lookup "commission" = some (.pystr s) ∧ decimalFromString s = none)) →
      ∃ e, custom_decoder dct = .error e) := by
  constructor
  · intro htag hbad
    have hcd : custom_decoder dct = decodeStock dct := by
      unfold custom_decoder
      rw [htag]
      rfl
    rw [hcd]
    rcases decodeStock_cases dct with ⟨e, he⟩ |
      ⟨st, hok, ⟨v1, hv1, hp1⟩, _hsym, ⟨v3, hv3, hp3⟩, ⟨v4, hv4, hp4⟩, ⟨v5, hv5, hp5⟩,
        ⟨v6, hv6, hp6⟩, _hvol⟩
    · exact ⟨e, he⟩
    · exfalso
      rcases hbad with ⟨hl, hp⟩ | ⟨hl, hp⟩ | ⟨hl, hp⟩ | ⟨hl, hp⟩ | ⟨hl, hp⟩
      · rw [hl] at hv1
        injection hv1 with hv1
        subst hv1
        simp [pyDateFromIso, hp] at hp1
      · rw [hl] at hv3
        injection hv3 with hv3
        subst hv3
        simp [pyToDecimal, hp] at hp3
      · rw [hl] at hv4
        injection hv4 with hv4
        subst hv4
        simp [pyToDecimal, hp] at hp4
      · rw [hl] at hv5
        injection hv5 with hv5
        subst hv5
        simp [pyToDecimal, hp] at hp5
      · rw [hl] at hv6
        injection hv6 with hv6
        subst hv6
        simp [pyToDecimal, hp] at hp6
  · intro htag hbad
    have hcd : custom_decoder dct = decodeTrade dct := by
      unfold custom_decoder
      rw [htag]
      rfl
    rw [hcd]
    rcases decodeTrade_cases dct with ⟨e, he⟩ |
      ⟨tr, hok, ⟨v1, hv1, hp1⟩, _hsym, _hord, ⟨v4, hv4, hp4⟩, _hvol, ⟨v6, hv6, hp6⟩⟩
    · exact ⟨e, he⟩
    · exfalso
      rcases hbad with ⟨hl, hp⟩ | ⟨hl, hp⟩ | ⟨hl, hp⟩
      · rw [hl] at hv1
        injection hv1 with hv1
        subst hv1
        simp [pyDatetimeFromIso, hp] at hp1
      · rw [hl] at hv4
        injection hv4 with hv4
        subst hv4
        simp [pyToDecimal, hp] at hp4
      · rw [hl] at hv6
        injection hv6 with hv6
        subst hv6
        simp [pyToDecimal, hp] at hp6

/-- Witness for C5: a `"Stock"`-tagged mapping with a malformed date and a
`"Trade"`-tagged mapping with a non-numeric price both make the decoder
raise. -/
theorem claim_C5_witness :
    (∃ e, custom_decoder
      [("__type__", PyValue.pystr "Stock"), ("symbol", .pystr "AAPL"),
       ("date", .pystr "not-a-date"), ("open", .pystr "1"), ("high", .pystr "1"),
       ("low", .pystr "1"), ("close", .pystr "1"), ("volume", .pyint 1)] = .error e) ∧
    (∃ e, custom_decoder
      [("__type__", PyValue.pystr "Trade"), ("symbol", .pystr "AAPL"),
       ("timestamp", .pystr "2024-01-15T09:30:00"), ("order", .pystr "buy"),
       ("price", .pystr "abc"), ("volume", .pyint 1), ("commission", .pystr "1")] =
        .error e) := by
  constructor
  · exact (claim_C5 _ "not-a-date").1 rfl (Or.inl ⟨rfl, by decide⟩)
  · exact (claim_C5 _ "abc").2 rfl (Or.inr (Or.inl ⟨rfl, by decide⟩))

/-- Claim C6: schema-codec decoding with `StockSchema` of an object missing
the `"volume"` member fails with a validation error that names `"volume"`;
no record with a defaulted volume is produced. -/
theorem claim_C6 (fs : List (String × JValue)) (h : fs.lookup "volume" = none) :
    ∃ errs, deserialize_with_marshmallow (.jobj fs) .stockSchema = .error errs ∧
      ("volume", "Missing data for required field.") ∈ errs := by
  have hmem : ("volume", "Missing data for required field.") ∈ fieldErrors StockSchema fs :=
    fieldErrors_missing (show ("volume", MMField.mint) ∈ StockSchema from by decide) h
  refine ⟨fieldErrors StockSchema fs, ?_, hmem⟩
  show (stockSchemaLoads (.jobj fs)).map PyValue.pystock = _
  rw [stockSchemaLoads_error (List.ne_nil_of_mem hmem)]
  rfl

/-- Witness for C6: a stock object with every field except `"volume"`. -/
theorem claim_C6_witness :
    List.lookup "volume"
      [("symbol", JValue.jstr "AAPL"), ("date", .jstr "2024-01-15"),
       ("open", .jstr "150.25"), ("high", .jstr "152.00"), ("low", .jstr "149.50"),
       ("close", .jstr "151.75")] = none ∧
    ∃ errs, deserialize_with_marshmallow (.jobj
      [("symbol", JValue.jstr "AAPL"), ("date", .jstr "2024-01-15"),
       ("open", .jstr "150.25"), ("high", .jstr "152.00"), ("low", .jstr "149.50"),
       ("close", .jstr "151.75")]) .stockSchema = .error errs ∧
      ("volume", "Missing data for required field.") ∈ errs :=
  ⟨rfl, claim_C6 _ rfl⟩

/-- Claim C7: during generic-codec encoding, a value that is not JSON-native
and not a Stock, Trade, date, datetime or Decimal raises a type error naming
the offending type — at the top level or nested inside a list or dict. -/
theorem claim_C7 (tyname : String) :
    jsonDumps (.pyother tyname) =
      .error ("Object of type " ++ tyname ++ " is not JSON serializable") ∧
    jsonDumps (.pylist [.pyother tyname]) =
      .error ("Object of type " ++ tyname ++ " is not JSON serializable") ∧
    jsonDumps (.pydict [("key", .pyother tyname)]) =
      .error ("Object of type " ++ tyname ++ " is not JSON serializable") := by
  refine ⟨?_, ?_, ?_⟩ <;>
    simp [jsonDumps, jsonDumpsList, jsonDumpsFields, CustomEncoder.default, PyValue.typeName]

/-- Claim C8: schema-codec decoding with the schema of the other record kind
fails with a validation error: a stock-shaped object through `TradeSchema`
and a trade-shaped object through `StockSchema` both error, never returning
a record of the wrong type. -/
theorem claim_C8 (fs gs : List (String × JValue))
    (hf : ∀ k, k ∈ fs.map Prod.fst ↔
      k ∈ ["symbol", "date", "open", "high", "low", "close", "volume"])
    (hg : ∀ k, k ∈ gs.map Prod.fst ↔
      k ∈ ["symbol", "timestamp", "order", "price", "volume", "commission"]) :
    (∃ errs, deserialize_with_marshmallow (.jobj fs) .tradeSchema = .error errs) ∧
    (∃ errs, deserialize_with_marshmallow (.jobj gs) .stockSchema = .error errs) := by
  constructor
  · have hnone : fs.lookup "timestamp" = none := by
      refine lookup_eq_none_of_not_mem ?_
      intro hmem
      have := (hf "timestamp").1 hmem
      simp at this
    have hmem : ("timestamp", "Missing data for required field.") ∈ fieldErrors TradeSchema fs :=
      fieldErrors_missing (show ("timestamp", MMField.mdatetime) ∈ TradeSchema from by decide) hnone
    refine ⟨fieldErrors TradeSchema fs, ?_⟩
    show (tradeSchemaLoads (.jobj fs)).map PyValue.pytrade = _
    rw [tradeSchemaLoads_error (List.ne_nil_of_mem hmem)]
    rfl
  · have hnone : gs.lookup "date" = none := by
      refine lookup_eq_none_of_not_mem ?_
      intro hmem
      have := (hg "date").1 hmem
      simp at this
    have hmem : ("date", "Missing data for required field.") ∈ fieldErrors StockSchema gs :=
      fieldErrors_missing (show ("date", MMField.mdate) ∈ StockSchema from by decide) hnone
    refine ⟨fieldErrors StockSchema gs, ?_⟩
    show (stockSchemaLoads (.jobj gs)).map PyValue.pystock = _
    rw [stockSchemaLoads_error (List.ne_nil_of_mem hmem)]
    rfl

/-- Witness for C8 at concrete stock-shaped and trade-shaped objects. -/
theorem claim_C8_witness :
    (∃ errs, deserialize_with_marshmallow (.jobj
      [("symbol", JValue.jstr "AAPL"), ("date", .jstr "2024-01-15"),
       ("open", .jstr "150.25"), ("high", .jstr "152.00"), ("low", .jstr "149.50"),
       ("close", .jstr "151.75"), ("volume", .jint 1000000)]) .tradeSchema = .error errs) ∧
    (∃ errs, deserialize_with_marshmallow (.jobj
      [("symbol", JValue.jstr "AAPL"), ("timestamp", .jstr "2024-01-15T09:30:00-05:00"),
       ("order", .jstr "buy"), ("price", .jstr "150.30"), ("volume", .jint 100),
       ("commission", .jstr "1.00")]) .stockSchema = .error errs) :=
  claim_C8 _ _ (fun _ => Iff.rfl) (fun _ => Iff.rfl)

/-- Claim C9: a `"Stock"`- or `"Trade"`-tagged mapping that lacks one of the
record's required field keys makes `custom_decoder` raise an error (the
missing-key lookup fails); the mapping is neither passed through unchanged
nor turned into a record with a defaulted field. -/
theorem claim_C9 (dct : List (String × PyValue)) (k : String) :
    (dct.lookup "__type__" = some (.pystr "Stock") →
      k ∈ ["symbol", "date", "open", "high", "low", "close", "volume"] →
      dct.lookup k = none → ∃ e, custom_decoder dct = .error e) ∧
    (dct.lookup "__type__" = some (.pystr "Trade") →
      k ∈ ["symbol", "timestamp", "order", "price", "volume", "commission"] →
      dct.lookup k = none → ∃ e, custom_decoder dct = .error e) := by
  constructor
  · intro htag hk hnone
    have hcd : custom_decoder dct = decodeStock dct := by
      unfold custom_decoder
      rw [htag]
      rfl
    rw [hcd]
    rcases decodeStock_cases dct with ⟨e, he⟩ |
      ⟨st, hok, ⟨v1, hv1, _⟩, ⟨v2, hv2, _⟩, ⟨v3, hv3, _⟩, ⟨v4, hv4, _⟩, ⟨v5, hv5, _⟩,
        ⟨v6, hv6, _⟩, ⟨v7, hv7, _⟩⟩
    · exact ⟨e, he⟩
    · exfalso
      simp only [List.mem_cons, List.not_mem_nil, or_false] at hk
      rcases hk with rfl | rfl | rfl | rfl | rfl | rfl | rfl
      · rw [hnone] at hv2; exact Option.noConfusion hv2
      · rw [hnone] at hv1; exact Option.noConfusion hv1
      · rw [hnone] at hv3; exact Option.noConfusion hv3
      · rw [hnone] at hv4; exact Option.noConfusion hv4
      · rw [hnone] at hv5; exact Option.noConfusion hv5
      · rw [hnone] at hv6; exact Option.noConfusion hv6
      · rw [hnone] at hv7; exact Option.noConfusion hv7
  · intro htag hk hnone
    have hcd : custom_decoder dct = decodeTrade dct := by
      unfold custom_decoder
      rw [htag]
      rfl
    rw [hcd]
    rcases decodeTrade_cases dct with ⟨e, he⟩ |
      ⟨tr, hok, ⟨v1, hv1, _⟩, ⟨v2, hv2, _⟩, ⟨v3, hv3, _⟩, ⟨v4, hv4, _⟩, ⟨v5, hv5, _⟩,
        ⟨v6, hv6, _⟩⟩
    · exact ⟨e, he⟩
    · exfalso
      simp only [List.mem_cons, List.not_mem_nil, or_false] at hk
      rcases hk with rfl | rfl | rfl | rfl | rfl | rfl
      · rw [hnone] at hv2; exact Option.noConfusion hv2
      · rw [hnone] at hv1; exact Option.noConfusion hv1
      · rw [hnone] at hv3; exact Option.noConfusion hv3
      · rw [hnone] at hv4; exact Option.noConfusion hv4
      · rw [hnone] at hv5; exact Option.noConfusion hv5
      · rw [hnone] at hv6; exact Option.noConfusion hv6

/-- Witness for C9: a `"Stock"`-tagged mapping missing `"volume"`. -/
theorem claim_C9_witness :
    List.lookup "volume"
      [("__type__", PyValue.pystr "Stock"), ("symbol", .pystr "AAPL"),
       ("date", .pystr "2024-01-15"), ("open", .pystr "1"), ("high", .pystr "1"),
       ("low", .pystr "1"), ("close", .pystr "1")] = none ∧
    ∃ e, custom_decoder
      [("__type__", PyValue.pystr "Stock"), ("symbol", .pystr "AAPL"),
       ("date", .pystr "2024-01-15"), ("open", .pystr "1"), ("high", .pystr "1"),
       ("low", .pystr "1"), ("close", .pystr "1")] = .error e :=
  ⟨rfl, (claim_C9 _ "volume").1 rfl (by decide) rfl⟩

/-- Claim C10: no operation enforces non-negativity of the integer volume:
for every integer volume, including negative values, the record exists and
the volume passes unchanged through construction, the tagged encode/decode
path and the schema-codec path, with no validation error. -/
theorem claim_C10 (s : Stock) (t : Trade) (v w : Int) (hs : s.date.valid = true)
    (ht : t.timestamp.valid = true) :
    (jsonDumps (.pystock { s with volume := v }) >>= jsonLoads) =
      Except.ok (.pystock { s with volume := v }) ∧
    stockSchemaLoads (stockSchemaDumps { s with volume := v }) = .ok { s with volume := v } ∧
    (jsonDumps (.pytrade { t with volume := w }) >>= jsonLoads) =
      Except.ok (.pytrade { t with volume := w }) ∧
    tradeSchemaLoads (tradeSchemaDumps { t with volume := w }) = .ok { t with volume := w } ∧
    asPyInt (.pyint v) = .ok v ∧ asInt (.jint v) = .ok v :=
  ⟨tagged_roundtrip_stock _ hs, stockSchema_roundtrip _ hs, tagged_roundtrip_trade _ ht,
   tradeSchema_roundtrip _ ht, rfl, rfl⟩

/-- Witness for C10 at negative volumes. -/
theorem claim_C10_witness :
    exStock.date.valid = true ∧ exTrade.timestamp.valid = true ∧
    ((jsonDumps (.pystock { exStock with volume := -5 }) >>= jsonLoads) =
       Except.ok (.pystock { exStock with volume := -5 }) ∧
     stockSchemaLoads (stockSchemaDumps { exStock with volume := -5 }) =
       .ok { exStock with volume := -5 } ∧
     (jsonDumps (.pytrade { exTrade with volume := -100 }) >>= jsonLoads) =
       Except.ok (.pytrade { exTrade with volume := -100 }) ∧
     tradeSchemaLoads (tradeSchemaDumps { exTrade with volume := -100 }) =
       .ok { exTrade with volume := -100 } ∧
     asPyInt (.pyint (-5)) = .ok (-5) ∧ asInt (.jint (-5)) = .ok (-5)) :=
  ⟨by decide, by decide, claim_C10 exStock exTrade (-5) (-100) (by decide) (by decide)⟩

end Assignment
